import Mathlib

/-!
# Verification of the gophkeeper server core

A shallow embedding of the gophkeeper secrets-vault server (Go) in Lean 4.

Byte strings are `List Nat`, identifiers (UUIDs) are `Nat`, time is `Nat`
(Unix seconds).  The PostgreSQL tables become in-memory lists, the
repository methods become pure state-passing functions translated from the
SQL statements in the source, and the service / handler layers are
translated statement by statement from the Go code.  Randomness
(`crypto/rand`) is threaded explicitly as a byte stream `Nat → Nat`
together with an offset.

The AES-256-GCM primitive (Go standard library, external to the
repository) is modelled by an idealized executable authenticated stream
cipher: encryption XORs the plaintext with a key/nonce-derived keystream
and appends a 16-byte key/nonce/ciphertext-dependent tag; decryption
recomputes and checks the tag.  This preserves exactly the interface
properties the source relies on: `Open k n (Seal k n p) = some p`, the
output length is `|p| + 16`, and a tag mismatch fails.  Likewise bcrypt is
modelled as an ideal salted hash and the UUID string codec as an injective
embedding.
-/

namespace Gophkeeper

/-- Byte strings (`[]byte` in Go). -/
abbrev Bytes := List Nat

/-! ## Go error values (`errors.New` sentinels, `fmt.Errorf("...: %w", err)` wrapping)

Each `errors.New` package-level sentinel in the source is a distinct
constructor; `errors.Is` compares by identity and unwraps `%w` chains.
Note that `repositories.ErrUserAlreadyExists` (part_009) and
`models.ErrUserAlreadyExists` (models.go) are *distinct* Go values even
though their message strings coincide, hence they are distinct
constructors here. -/

inductive GoErr where
  /-- Go `repositories.ErrItemNotFound` (item_repository.go). -/
  | errItemNotFound
  /-- Go `repositories.ErrUserAlreadyExists` (user repository, part_009). -/
  | errUserAlreadyExistsRepo
  /-- Go `repositories.ErrUserNotFound` (user repository, part_009). -/
  | errUserNotFoundRepo
  /-- Go `models.ErrUserAlreadyExists` (models.go). -/
  | errUserAlreadyExistsModels
  /-- Go `models.ErrUserNotFound` (models.go). -/
  | errUserNotFoundModels
  /-- Go `services.ErrInvalidCredentials` (auth service, part_001). -/
  | errInvalidCredentials
  /-- Go `services.ErrInvalidItemType` (item_service.go). -/
  | errInvalidItemType
  /-- base64 `CorruptInputError` from `encoding/base64`. -/
  | errBase64Corrupt
  /-- an AES/GCM failure from `pkg/crypto` (`aes.NewCipher` or `gcm.Open`). -/
  | errCryptoFailed
  /-- a database-level constraint violation (PK / UNIQUE) from pgx. -/
  | errPgConflict
  /-- bcrypt mismatch error from `bcrypt.CompareHashAndPassword`. -/
  | errBcryptMismatch
  /-- jwt: signature verification failure. -/
  | errSignatureInvalid
  /-- jwt: claims (exp / nbf / iat) validation failure. -/
  | errTokenExpired
  /-- jwt: non-HMAC signing method rejected by the key func. -/
  | errUnexpectedSigningMethod
  /-- jwt: subject claim is not a parsable UUID. -/
  | errInvalidSubject
  /-- Go `fmt.Errorf("<msg>: %w", inner)`. -/
  | wrap (msg : String) (inner : GoErr)
deriving DecidableEq, Repr

/-- Go `errors.Is err target`: identity comparison, unwrapping `%w` chains. -/
def errorIs : GoErr → GoErr → Bool
  | e, t =>
    if e = t then true
    else match e with
      | .wrap _ inner => errorIs inner t
      | _ => false

/-! ## The AES-GCM model (Go `crypto/aes` + `crypto/cipher` GCM) -/

/-- GCM standard nonce size (`gcm.NonceSize()` = 12 bytes / 96 bits). -/
def nonceSize : Nat := 12

/-- GCM tag size (16 bytes / 128 bits). -/
def tagSize : Nat := 16

/-- Go `crypto.KeySize` = 32 (crypto.go). -/
def KeySize : Nat := 32

/-- Go `aes.NewCipher` succeeds only for AES-128/192/256 key sizes. -/
def validKeySize (n : Nat) : Bool := n == 16 || n == 24 || n == 32

/-- A deterministic mixing fold, used to derive the model keystream and tag. -/
def foldHash (acc : Nat) (bs : Bytes) : Nat :=
  bs.foldl (fun a b => a * 257 + b + 1) acc

/-- Model keystream: `n` bytes derived from key and nonce. -/
def keystream (key nonce : Bytes) (n : Nat) : Bytes :=
  (List.range n).map (fun i => foldHash (foldHash (i + 2) key) nonce % 256)

/-- Model authentication tag over key, nonce and ciphertext (16 bytes). -/
def gcmTag (key nonce ct : Bytes) : Bytes :=
  (List.range tagSize).map (fun i => foldHash (foldHash (foldHash i key) nonce) ct % 256)

/-- XOR a byte string with the model keystream (involutive). -/
def xorStream (key nonce bs : Bytes) : Bytes :=
  bs.zipWith Nat.xor (keystream key nonce bs.length)

/-- Go `gcm.Seal nil nonce plaintext nil`: ciphertext body followed by the tag. -/
def gcmSeal (key nonce pt : Bytes) : Bytes :=
  xorStream key nonce pt ++ gcmTag key nonce (xorStream key nonce pt)

/-- Go `gcm.Open nil nonce data nil`: check length and tag, then unmask. -/
def gcmOpen (key nonce data : Bytes) : Option Bytes :=
  if data.length < tagSize then none
  else if data.drop (data.length - tagSize) = gcmTag key nonce (data.take (data.length - tagSize))
  then some (xorStream key nonce (data.take (data.length - tagSize)))
  else none

/-- Outcome of `crypto.Decrypt`: a Go function can return a value, return an
error, or panic at runtime. -/
inductive DecOutcome where
  | ok (pt : Bytes)
  | err
  | panics
deriving DecidableEq, Repr

/-- Go `crypto.Encrypt key plaintext` (crypto.go), with the random nonce made
an explicit argument.  Result is `nonce ‖ gcm.Seal(...)`; `aes.NewCipher`
rejects invalid key sizes. -/
def Encrypt (key nonce pt : Bytes) : Option Bytes :=
  if validKeySize key.length then some (nonce ++ gcmSeal key nonce pt) else none

/-- Go `crypto.Decrypt key ciphertext` (crypto.go), translated line by line:

```go
nonceSize := gcm.NonceSize()
nonce := ciphertext[:nonceSize]   // PANICS when len(ciphertext) < nonceSize
data := ciphertext[nonceSize:]
plaintext, err := gcm.Open(nil, nonce, data, nil)
```

There is no length guard in the source, so a ciphertext shorter than the
nonce size hits a Go slice-bounds runtime panic, modelled by `.panics`. -/
def Decrypt (key ct : Bytes) : DecOutcome :=
  if ¬ validKeySize key.length then .err
  else if ct.length < nonceSize then .panics
  else
    match gcmOpen key (ct.take nonceSize) (ct.drop nonceSize) with
    | some pt => .ok pt
    | none => .err

/-- Draw `n` bytes from the random stream `g` at offset `off`
(models `rand.Read` / `io.ReadFull(rand.Reader, ...)`). -/
def randBytes (g : Nat → Nat) (off n : Nat) : Bytes :=
  (List.range n).map (fun i => g (off + i) % 256)

/-- Go `crypto.KeyGen()` : 32 fresh random bytes. -/
def KeyGen (g : Nat → Nat) (off : Nat) : Bytes :=
  randBytes g off KeySize

/-! ### Basic facts about the crypto model -/

theorem keystream_length (key nonce : Bytes) (n : Nat) :
    (keystream key nonce n).length = n := by
  simp [keystream]

theorem xorStream_length (key nonce bs : Bytes) :
    (xorStream key nonce bs).length = bs.length := by
  simp [xorStream, keystream_length]

theorem gcmTag_length (key nonce ct : Bytes) : (gcmTag key nonce ct).length = tagSize := by
  simp [gcmTag]

theorem randBytes_length (g : Nat → Nat) (off n : Nat) :
    (randBytes g off n).length = n := by
  simp [randBytes]

theorem KeyGen_length (g : Nat → Nat) (off : Nat) : (KeyGen g off).length = KeySize :=
  randBytes_length g off KeySize

/-- Pointwise XOR against a same-length mask is involutive. -/
theorem zipWith_xor_cancel (bs ks : Bytes) (h : ks.length = bs.length) :
    (bs.zipWith Nat.xor ks).zipWith Nat.xor ks = bs := by
  induction bs generalizing ks with
  | nil => simp
  | cons b tl ih =>
    cases ks with
    | nil => simp at h
    | cons k ks' =>
      simp only [List.length_cons, Nat.succ.injEq] at h
      simp only [List.zipWith, List.cons.injEq]
      exact ⟨Nat.xor_cancel_right k b, ih ks' h⟩

/-- XOR-with-keystream is involutive. -/
theorem xorStream_xorStream (key nonce bs : Bytes) :
    xorStream key nonce (xorStream key nonce bs) = bs := by
  unfold xorStream
  rw [show (bs.zipWith Nat.xor (keystream key nonce bs.length)).length = bs.length by
    simp [keystream_length]]
  exact zipWith_xor_cancel bs _ (keystream_length key nonce bs.length)

theorem gcmSeal_length (key nonce pt : Bytes) :
    (gcmSeal key nonce pt).length = pt.length + tagSize := by
  simp [gcmSeal, xorStream_length, gcmTag_length]

/-- GCM round trip: opening a sealed message recovers the plaintext. -/
theorem gcmOpen_gcmSeal (key nonce pt : Bytes) :
    gcmOpen key nonce (gcmSeal key nonce pt) = some pt := by
  unfold gcmOpen
  rw [gcmSeal_length, if_neg (by omega)]
  unfold gcmSeal
  have heq : pt.length + tagSize - tagSize = (xorStream key nonce pt).length := by
    rw [xorStream_length]; omega
  have htake : (xorStream key nonce pt ++ gcmTag key nonce (xorStream key nonce pt)).take
      (pt.length + tagSize - tagSize) = xorStream key nonce pt := by
    rw [heq, List.take_left]
  have hdrop : (xorStream key nonce pt ++ gcmTag key nonce (xorStream key nonce pt)).drop
      (pt.length + tagSize - tagSize) = gcmTag key nonce (xorStream key nonce pt) := by
    rw [heq, List.drop_left]
  rw [htake, hdrop, if_pos rfl, xorStream_xorStream]

/-- Go `Encrypt` with a valid key size always succeeds, producing `nonce ++ gcmSeal`. -/
theorem Encrypt_eq (key nonce pt : Bytes) (hk : validKeySize key.length = true) :
    Encrypt key nonce pt = some (nonce ++ gcmSeal key nonce pt) := by
  unfold Encrypt; rw [if_pos hk]

/-- Full round trip of the repository's `Encrypt` / `Decrypt` pair. -/
theorem Decrypt_Encrypt (key nonce pt : Bytes)
    (hk : validKeySize key.length = true) (hn : nonce.length = nonceSize) :
    Decrypt key (nonce ++ gcmSeal key nonce pt) = .ok pt := by
  unfold Decrypt
  rw [if_neg (by simp [hk])]
  have hnotshort : ¬ (nonce ++ gcmSeal key nonce pt).length < nonceSize := by
    simp [gcmSeal_length, hn]
  rw [if_neg hnotshort]
  have htake : (nonce ++ gcmSeal key nonce pt).take nonceSize = nonce := by
    rw [← hn, List.take_left]
  have hdrop : (nonce ++ gcmSeal key nonce pt).drop nonceSize = gcmSeal key nonce pt := by
    rw [← hn, List.drop_left]
  rw [htake, hdrop, gcmOpen_gcmSeal]

/-! ## Base64 (Go `encoding/base64` StdEncoding) -/

/-- Value of a standard-alphabet base64 character. -/
def b64Val (c : Char) : Option Nat :=
  if 'A' <= c && c <= 'Z' then some (c.toNat - 65)
  else if 'a' <= c && c <= 'z' then some (c.toNat - 97 + 26)
  else if '0' <= c && c <= '9' then some (c.toNat - 48 + 52)
  else if c == '+' then some 62
  else if c == '/' then some 63
  else none

/-- Decode base64 quanta of four characters; `=` padding is allowed only at
the very end, in the forms `cc==` and `ccc=` (as in Go's strict quantum
handling for `StdEncoding`). -/
def b64Quanta : List Char → Option Bytes
  | [] => some []
  | a :: b :: c :: d :: rest =>
    match b64Val a, b64Val b with
    | some va, some vb =>
      if c == '=' then
        if d == '=' && rest.isEmpty then some [va * 4 + vb / 16]
        else none
      else
        match b64Val c with
        | some vc =>
          if d == '=' then
            if rest.isEmpty then some [va * 4 + vb / 16, vb % 16 * 16 + vc / 4]
            else none
          else
            match b64Val d with
            | some vd =>
              (b64Quanta rest).map
                (fun tl => (va * 4 + vb / 16) :: (vb % 16 * 16 + vc / 4) :: (vc % 4 * 64 + vd) :: tl)
            | none => none
        | none => none
    | _, _ => none
  | _ => none

/-- Go `base64.StdEncoding.DecodeString`: CR/LF are skipped, everything else is
decoded in quanta of four; any other shape is a `CorruptInputError`. -/
def b64DecodeGo (s : String) : Option Bytes :=
  b64Quanta (s.data.filter (fun c => !(c == '\r' || c == '\n')))

/-! ## Data model (models/models.go) -/

/-- Ideal model of a bcrypt hash string: it determines (only) the
salt/cost parameters and which passwords verify against it. -/
structure BcryptHash where
  cost : Nat
  salt : Nat
  pw : String
deriving DecidableEq, Repr

/-- Go `bcrypt.GenerateFromPassword(password, bcrypt.DefaultCost)` with the
random salt explicit. -/
def bcryptGenerateFromPassword (password : String) (salt : Nat) : BcryptHash :=
  { cost := 10, salt := salt, pw := password }

/-- Go `bcrypt.CompareHashAndPassword`: succeeds exactly when the password
matches the one the hash was built from. -/
def bcryptCompareHashAndPassword (h : BcryptHash) (password : String) : Except GoErr Unit :=
  if h.pw == password then .ok () else .error .errBcryptMismatch

/-- Go `models.User`. -/
structure User where
  id : Nat
  username : String
  passwordHash : BcryptHash
  createdAt : Nat
  updatedAt : Nat
deriving DecidableEq, Repr

/-- Go `models.Item`; `type` is the underlying string of `models.ItemType`. -/
structure Item where
  id : Nat
  userID : Nat
  type : String
  title : String
  metadata : String
  createdAt : Nat
  updatedAt : Nat
deriving DecidableEq, Repr

/-- Go `models.EncryptedData`. -/
structure EncryptedData where
  id : Nat
  itemID : Nat
  dataEncrypted : Bytes
  dataKeyEncrypted : Bytes
deriving DecidableEq, Repr

/-- Go `models.CreateItemRequest`. -/
structure CreateItemRequest where
  type : String
  title : String
  metadata : String
  dataBase64 : String
deriving DecidableEq, Repr

/-- Go `models.UpdateItemRequest`: every field optional (`*T` pointers,
`nil` = absent). -/
structure UpdateItemRequest where
  type : Option String
  title : Option String
  metadata : Option String
  dataBase64 : Option String
deriving DecidableEq, Repr

/-- Go `services.isValidType` (item_service.go). -/
def isValidType (t : String) : Bool :=
  t == "credential" || t == "text" || t == "binary" || t == "card"

/-! ## Database state

The four PostgreSQL relations of migration 000001_init.up.sql as
in-memory lists. -/

structure ServerState where
  users : List User
  keys : List (Nat × Bytes)
  items : List Item
  encData : List EncryptedData
deriving DecidableEq, Repr

/-! ## Repositories

Each function translates the SQL statements of the corresponding Go
repository method.  A repository write returns the pair
(result, post-state); an error leaves the state unchanged (transaction
rollback on any error before commit, as in the `defer tx.Rollback`
pattern of item_repository.go). -/

/-- Go `UserRepository.CreateUser` (part_009): INSERT INTO users; a
unique-violation on `username` becomes `repositories.ErrUserAlreadyExists`;
`created_at`/`updated_at` are filled by the database and scanned back. -/
def UserRepository.CreateUser (st : ServerState) (user : User) (now : Nat) :
    Except GoErr User × ServerState :=
  if st.users.any (fun u => u.username == user.username) then
    (.error .errUserAlreadyExistsRepo, st)
  else
    let u := { user with createdAt := now, updatedAt := now }
    (.ok u, { st with users := st.users ++ [u] })

/-- Go `UserRepository.GetUserByUsername` (part_009): SELECT ... WHERE
username = $1; no row becomes `repositories.ErrUserNotFound`. -/
def UserRepository.GetUserByUsername (st : ServerState) (username : String) :
    Except GoErr User :=
  match st.users.find? (fun u => u.username == username) with
  | some u => .ok u
  | none => .error .errUserNotFoundRepo

/-- Go `KeyRepository.Save` (key_repository.go): INSERT ... ON CONFLICT
(user_id) DO UPDATE SET key_encrypted (upsert). -/
def KeyRepository.Save (st : ServerState) (userID : Nat) (enc : Bytes) : ServerState :=
  if st.keys.any (fun p => p.1 == userID) then
    { st with keys := st.keys.map (fun p => if p.1 == userID then (userID, enc) else p) }
  else
    { st with keys := st.keys ++ [(userID, enc)] }

/-- Go `KeyRepository.Load` (key_repository.go): SELECT key_encrypted WHERE
user_id = $1; `none` is the `(nil, false, nil)` "absent" result. -/
def KeyRepository.Load (st : ServerState) (userID : Nat) : Option Bytes :=
  (st.keys.find? (fun p => p.1 == userID)).map (fun p => p.2)

/-- Go `ItemRepository.Create` (item_repository.go): one transaction that
inserts the item row (timestamps filled by the database) and, when
present, the paired encrypted-data row with `item_id` pinned to the new
item's id; any statement failure rolls the whole transaction back. -/
def ItemRepository.Create (st : ServerState) (item : Item)
    (encOpt : Option EncryptedData) (now : Nat) : Except GoErr Item × ServerState :=
  if st.items.any (fun it => it.id == item.id) then
    (.error (.wrap "failed to create item" .errPgConflict), st)
  else
    let item1 := { item with createdAt := now, updatedAt := now }
    let st1 := { st with items := st.items ++ [item1] }
    match encOpt with
    | none => (.ok item1, st1)
    | some ed =>
      let ed1 := { ed with itemID := item1.id }
      if st1.encData.any (fun e => e.id == ed1.id || e.itemID == ed1.itemID) then
        (.error (.wrap "failed to create encrypted-data" .errPgConflict), st)
      else
        (.ok item1, { st1 with encData := st1.encData ++ [ed1] })

/-- The COALESCE row update of `ItemRepository.Update`: each of
{type, title, metadata} takes the request value when supplied, otherwise
keeps the stored value; `updated_at := NOW()`. -/
def coalesceItem (old : Item) (req : UpdateItemRequest) (now : Nat) : Item :=
  { old with
      type := req.type.getD old.type
      title := req.title.getD old.title
      metadata := req.metadata.getD old.metadata
      updatedAt := now }

/-- Go `ItemRepository.Update` (item_repository.go): one transaction:
UPDATE items ... WHERE id = $1 AND user_id = $2 (no row ⇒
`ErrItemNotFound`), then, when encrypted data accompanies the update,
INSERT ... ON CONFLICT (item_id) DO UPDATE SET data_encrypted,
data_key_encrypted; any failure rolls the transaction back. -/
def ItemRepository.Update (st : ServerState) (userID itemID : Nat)
    (req : UpdateItemRequest) (encOpt : Option EncryptedData) (now : Nat) :
    Except GoErr Item × ServerState :=
  match st.items.find? (fun it => it.id == itemID && it.userID == userID) with
  | none => (.error .errItemNotFound, st)
  | some old =>
    let item := coalesceItem old req now
    let items1 := st.items.map
      (fun it => if it.id == itemID && it.userID == userID then item else it)
    let st1 := { st with items := items1 }
    match encOpt with
    | none => (.ok item, st1)
    | some ed =>
      let ed1 := { ed with itemID := item.id }
      if st1.encData.any (fun e => e.itemID == ed1.itemID) then
        let enc1 := st1.encData.map (fun e =>
          if e.itemID == ed1.itemID then
            { e with dataEncrypted := ed1.dataEncrypted,
                     dataKeyEncrypted := ed1.dataKeyEncrypted }
          else e)
        (.ok item, { st1 with encData := enc1 })
      else if st1.encData.any (fun e => e.id == ed1.id) then
        (.error (.wrap "failed to update encrypted-data" .errPgConflict), st)
      else
        (.ok item, { st1 with encData := st1.encData ++ [ed1] })

/-- Go `ItemRepository.GetByID` (item_repository.go): the item query filters
by `id = $1 AND user_id = $2` (no row ⇒ `ErrItemNotFound`); the
encrypted-data query keys on `item_id` and its absence is not an error. -/
def ItemRepository.GetByID (st : ServerState) (userID itemID : Nat) :
    Except GoErr (Item × Option EncryptedData) :=
  match st.items.find? (fun it => it.id == itemID && it.userID == userID) with
  | none => .error .errItemNotFound
  | some it => .ok (it, st.encData.find? (fun e => e.itemID == itemID))

/-- Go `ItemRepository.DeleteByID` (item_repository.go): DELETE FROM items
WHERE id = $1 AND user_id = $2; zero rows affected ⇒ `ErrItemNotFound`;
the ON DELETE CASCADE on encrypted_data removes the paired row. -/
def ItemRepository.DeleteByID (st : ServerState) (userID itemID : Nat) :
    Except GoErr Unit × ServerState :=
  if st.items.any (fun it => it.id == itemID && it.userID == userID) then
    (.ok (), { st with
      items := st.items.filter (fun it => !(it.id == itemID && it.userID == userID)),
      encData := st.encData.filter (fun e => !(e.itemID == itemID)) })
  else
    (.error .errItemNotFound, st)

/-! ## Item service (item_service.go)

A service call can return a value, return an error, or panic (the latter
only through `crypto.Decrypt` on a too-short ciphertext). -/

inductive SvcOut (α : Type) where
  | ok (a : α)
  | fail (e : GoErr)
  | panics
deriving DecidableEq, Repr

/-- Go `services.decodeBase64` (item_service.go): empty input decodes to no
payload; invalid base64 is an input failure. -/
def decodeBase64 (data : String) : Except GoErr Bytes :=
  if data == "" then .ok []
  else
    match b64DecodeGo data with
    | some payload => .ok payload
    | none => .error (.wrap "failed to decode base64" .errBase64Corrupt)

/-- The else-branch of `ItemService.loadOrCreateKey`: generate a fresh
32-byte user key, wrap it under the master key, upsert it into the key
store, and return the plaintext key. -/
def ItemService.generateAndSaveKey (masterKey : Bytes) (g : Nat → Nat) (off : Nat)
    (st : ServerState) (userID : Nat) : SvcOut Bytes × ServerState × Nat :=
  let key := KeyGen g off
  let off1 := off + KeySize
  match Encrypt masterKey (randBytes g off1 nonceSize) key with
  | none => (.fail (.wrap "failed to encrypt key" .errCryptoFailed), st, off1 + nonceSize)
  | some enc => (.ok key, KeyRepository.Save st userID enc, off1 + nonceSize)

/-- Go `ItemService.loadOrCreateKey` (item_service.go): load the wrapped user
key; when present and non-empty, unwrap it under the master key; otherwise
generate, wrap and save a fresh one. -/
def ItemService.loadOrCreateKey (masterKey : Bytes) (g : Nat → Nat) (off : Nat)
    (st : ServerState) (userID : Nat) : SvcOut Bytes × ServerState × Nat :=
  match KeyRepository.Load st userID with
  | some keyEncrypted =>
    if 0 < keyEncrypted.length then
      match Decrypt masterKey keyEncrypted with
      | .ok key => (.ok key, st, off)
      | .err => (.fail .errCryptoFailed, st, off)
      | .panics => (.panics, st, off)
    else ItemService.generateAndSaveKey masterKey g off st userID
  | none => ItemService.generateAndSaveKey masterKey g off st userID

/-- Envelope-encrypt a payload (steps 4.a–4.e shared by `CreateItem` and
`UpdateItem`): load or create the user key, generate a fresh data key,
encrypt the payload under the data key and the data key under the user
key.  Returns the encrypted-data record. -/
def ItemService.buildEncData (masterKey : Bytes) (g : Nat → Nat) (off : Nat)
    (st : ServerState) (userID newEncID itemID : Nat) (payload : Bytes) :
    SvcOut EncryptedData × ServerState × Nat :=
  match ItemService.loadOrCreateKey masterKey g off st userID with
  | (.panics, st1, off1) => (.panics, st1, off1)
  | (.fail e, st1, off1) => (.fail (.wrap "failed to load or create key" e), st1, off1)
  | (.ok userKey, st1, off1) =>
    let dataKey := KeyGen g off1
    let off2 := off1 + KeySize
    match Encrypt dataKey (randBytes g off2 nonceSize) payload with
    | none => (.fail (.wrap "failed to encrypt data" .errCryptoFailed), st1, off2 + nonceSize)
    | some dataEncrypted =>
      let off3 := off2 + nonceSize
      match Encrypt userKey (randBytes g off3 nonceSize) dataKey with
      | none => (.fail (.wrap "failed to encrypt data key" .errCryptoFailed), st1, off3 + nonceSize)
      | some dataKeyEncrypted =>
        (.ok { id := newEncID, itemID := itemID,
               dataEncrypted := dataEncrypted, dataKeyEncrypted := dataKeyEncrypted },
         st1, off3 + nonceSize)

/-- Go `ItemService.CreateItem` (item_service.go): validate the type, decode
the base64 payload, envelope-encrypt a non-empty payload, and persist item
plus optional encrypted data in one repository transaction. -/
def ItemService.CreateItem (masterKey : Bytes) (g : Nat → Nat) (off : Nat)
    (st : ServerState) (req : CreateItemRequest)
    (userID newItemID newEncID now : Nat) : SvcOut Item × ServerState × Nat :=
  if ¬ isValidType req.type then (.fail .errInvalidItemType, st, off)
  else
    match decodeBase64 req.dataBase64 with
    | .error e => (.fail (.wrap "failed to decode base64 data" e), st, off)
    | .ok payload =>
      let item : Item := { id := newItemID, userID := userID, type := req.type,
                           title := req.title, metadata := req.metadata,
                           createdAt := 0, updatedAt := 0 }
      if 0 < payload.length then
        match ItemService.buildEncData masterKey g off st userID newEncID newItemID payload with
        | (.panics, st1, off1) => (.panics, st1, off1)
        | (.fail e, st1, off1) => (.fail e, st1, off1)
        | (.ok encData, st1, off1) =>
          match ItemRepository.Create st1 item (some encData) now with
          | (.error e, st2) => (.fail (.wrap "failed to create item" e), st2, off1)
          | (.ok item1, st2) => (.ok item1, st2, off1)
      else
        match ItemRepository.Create st item none now with
        | (.error e, st2) => (.fail (.wrap "failed to create item" e), st2, off)
        | (.ok item1, st2) => (.ok item1, st2, off)

/-- The body of `ItemService.UpdateItem` after the type check: when the
request carries a non-empty `data_base64` string, decode it and
envelope-encrypt a replacement payload; then run the repository update. -/
def ItemService.updateBody (masterKey : Bytes) (g : Nat → Nat) (off : Nat)
    (st : ServerState) (userID itemID : Nat) (req : UpdateItemRequest)
    (newEncID now : Nat) : SvcOut Item × ServerState × Nat :=
  match req.dataBase64 with
  | some s =>
    if 0 < s.length then
      match decodeBase64 s with
      | .error e => (.fail (.wrap "failed to decode base64 data" e), st, off)
      | .ok payload =>
        match ItemService.buildEncData masterKey g off st userID newEncID itemID payload with
        | (.panics, st1, off1) => (.panics, st1, off1)
        | (.fail e, st1, off1) => (.fail e, st1, off1)
        | (.ok encData, st1, off1) =>
          match ItemRepository.Update st1 userID itemID req (some encData) now with
          | (.error e, st2) => (.fail (.wrap "failed to update item" e), st2, off1)
          | (.ok item, st2) => (.ok item, st2, off1)
    else
      match ItemRepository.Update st userID itemID req none now with
      | (.error e, st2) => (.fail (.wrap "failed to update item" e), st2, off)
      | (.ok item, st2) => (.ok item, st2, off)
  | none =>
    match ItemRepository.Update st userID itemID req none now with
    | (.error e, st2) => (.fail (.wrap "failed to update item" e), st2, off)
    | (.ok item, st2) => (.ok item, st2, off)

/-- Go `ItemService.UpdateItem` (item_service.go): reject an invalid supplied
type, then run `updateBody`. -/
def ItemService.UpdateItem (masterKey : Bytes) (g : Nat → Nat) (off : Nat)
    (st : ServerState) (userID itemID : Nat) (req : UpdateItemRequest)
    (newEncID now : Nat) : SvcOut Item × ServerState × Nat :=
  match req.type with
  | some t =>
    if ¬ isValidType t then (.fail .errInvalidItemType, st, off)
    else ItemService.updateBody masterKey g off st userID itemID req newEncID now
  | none => ItemService.updateBody masterKey g off st userID itemID req newEncID now

/-- Go `ItemService.GetItem` (item_service.go): fetch item and encrypted data
by (owner, id); when encrypted data is present, unwrap the data key under
the user key and the payload under the data key. -/
def ItemService.GetItem (masterKey : Bytes) (g : Nat → Nat) (off : Nat)
    (st : ServerState) (userID itemID : Nat) :
    SvcOut (Item × Bytes) × ServerState × Nat :=
  match ItemRepository.GetByID st userID itemID with
  | .error e => (.fail (.wrap "failed to get item" e), st, off)
  | .ok (item, encOpt) =>
    match encOpt with
    | some encData =>
      if 0 < encData.dataEncrypted.length then
        match ItemService.loadOrCreateKey masterKey g off st userID with
        | (.panics, st1, off1) => (.panics, st1, off1)
        | (.fail e, st1, off1) => (.fail (.wrap "failed to load or create key" e), st1, off1)
        | (.ok userKey, st1, off1) =>
          match Decrypt userKey encData.dataKeyEncrypted with
          | .panics => (.panics, st1, off1)
          | .err => (.fail (.wrap "failed to decrypt data key" .errCryptoFailed), st1, off1)
          | .ok dataKey =>
            match Decrypt dataKey encData.dataEncrypted with
            | .panics => (.panics, st1, off1)
            | .err => (.fail (.wrap "failed to decrypt data" .errCryptoFailed), st1, off1)
            | .ok plainData => (.ok (item, plainData), st1, off1)
      else (.ok (item, []), st, off)
    | none => (.ok (item, []), st, off)

/-- Go `ItemService.DeleteItem` (item_service.go). -/
def ItemService.DeleteItem (st : ServerState) (userID itemID : Nat) :
    SvcOut Unit × ServerState :=
  match ItemRepository.DeleteByID st userID itemID with
  | (.error e, st1) => (.fail (.wrap "failed to delete item" e), st1)
  | (.ok _, st1) => (.ok (), st1)

/-! ## JWT (pkg/jwt/jwt.go, golang-jwt/jwt v4) -/

/-- The subject claim string.  `subj.uid u` is the string `u.String()` for
the UUID `u` (which `uuid.Parse` recovers); `subj.raw s` is any string that
is not a syntactically valid UUID. -/
inductive Subj where
  | uid (u : Nat)
  | raw (s : String)
deriving DecidableEq, Repr

/-- Go `uuid.Parse` applied to the subject claim. -/
def uuidParse : Subj → Option Nat
  | .uid u => some u
  | .raw _ => none

/-- Go `jwt.RegisteredClaims` as populated by GenerateToken. -/
structure TokenClaims where
  sub : Subj
  exp : Nat
  iat : Nat
  nbf : Nat
deriving DecidableEq, Repr

/-- Signing algorithms appearing in a token header. -/
inductive Alg where
  | HS256
  | HS384
  | HS512
  | RS256
  | algNone
deriving DecidableEq, Repr

/-- Go `jwt.SigningMethodHMAC` covers HS256/384/512. -/
def Alg.isHMAC : Alg → Bool
  | .HS256 | .HS384 | .HS512 => true
  | _ => false

/-- A serialized token: header algorithm, claims, and the HMAC signature
over header+claims.  The ideal MAC is modelled as the signed content
itself paired with the secret (unforgeable in the model). -/
structure Token where
  alg : Alg
  claims : TokenClaims
  sig : String × Alg × TokenClaims
deriving DecidableEq, Repr

/-- The HMAC-SHA256 signature in the ideal-MAC model. -/
def hmacSign (secret : String) (alg : Alg) (c : TokenClaims) : String × Alg × TokenClaims :=
  (secret, alg, c)

/-- Go `Generator.GenerateToken` (jwt.go): subject = user id, `exp` = now +
configured lifetime, `iat` = `nbf` = now, signed with HS256. -/
def GenerateToken (secret : String) (expiration : Nat) (userID : Nat) (now : Nat) : Token :=
  let c : TokenClaims := { sub := .uid userID, exp := now + expiration, iat := now, nbf := now }
  { alg := .HS256, claims := c, sig := hmacSign secret .HS256 c }

/-- Go `jwt.RegisteredClaims.Valid` at time `now` (v4): token not yet
expired (`now < exp`, strictly), already valid (`nbf ≤ now`) and already
issued (`iat ≤ now`). -/
def claimsValid (c : TokenClaims) (now : Nat) : Bool :=
  decide (now < c.exp) && decide (c.nbf ≤ now) && decide (c.iat ≤ now)

/-- Go `Generator.ValidateToken` (jwt.go): the key func rejects non-HMAC
methods; then the signature is verified, the registered claims are
validated against the clock, and the subject is parsed as a UUID. -/
def ValidateToken (secret : String) (tok : Token) (now : Nat) : Except GoErr Nat :=
  if ¬ tok.alg.isHMAC then .error (.wrap "unexpected signing method" .errUnexpectedSigningMethod)
  else if tok.sig ≠ hmacSign secret tok.alg tok.claims then .error .errSignatureInvalid
  else if ¬ claimsValid tok.claims now then .error .errTokenExpired
  else
    match uuidParse tok.claims.sub with
    | some userID => .ok userID
    | none => .error (.wrap "invalid user ID" .errInvalidSubject)

/-! ## Auth service (part_001) -/

/-- Go `services.hashPassword`: bcrypt with the default cost; random salt
made explicit. -/
def hashPassword (password : String) (salt : Nat) : BcryptHash :=
  bcryptGenerateFromPassword password salt

/-- Go `AuthService.Register` (part_001): hash the password, build the user,
insert it; a repository failure that `errors.Is`-matches
`models.ErrUserAlreadyExists` gets the dedicated wrap, anything else the
generic one; finally issue a token. -/
def AuthService.Register (secret : String) (expiration : Nat) (st : ServerState)
    (username password : String) (uid salt now : Nat) :
    Except GoErr (User × Token) × ServerState :=
  let user : User := { id := uid, username := username,
                       passwordHash := hashPassword password salt,
                       createdAt := 0, updatedAt := 0 }
  match UserRepository.CreateUser st user now with
  | (.error e, st1) =>
    if errorIs e .errUserAlreadyExistsModels then
      (.error (.wrap "user already exists" e), st1)
    else
      (.error (.wrap "failed to create user" e), st1)
  | (.ok u, st1) => (.ok (u, GenerateToken secret expiration uid now), st1)

/-- Go `AuthService.Login` (part_001): look the user up by username — a
failure that `errors.Is`-matches `models.ErrUserNotFound` collapses to
`ErrInvalidCredentials`, others are wrapped — then verify the password
(mismatch also collapses to `ErrInvalidCredentials`) and issue a token. -/
def AuthService.Login (secret : String) (expiration : Nat) (st : ServerState)
    (username password : String) (now : Nat) : Except GoErr (User × Token) :=
  match UserRepository.GetUserByUsername st username with
  | .error e =>
    if errorIs e .errUserNotFoundModels then .error .errInvalidCredentials
    else .error (.wrap "failed to get user" e)
  | .ok user =>
    match bcryptCompareHashAndPassword user.passwordHash password with
    | .error _ => .error .errInvalidCredentials
    | .ok _ => .ok (user, GenerateToken secret expiration user.id now)

/-! ## HTTP handlers (auth_handler.go, item_handler.go)

Each handler is modelled from the point where the JSON body has been
decoded (the `isJSON` content-type gate and JSON decoding sit in front of
every body-carrying handler and are not in dispute here).  The result is
the HTTP status code written, plus the post-state for writes. -/

/-- Go `AuthHandler.Register` (auth_handler.go): validator rejects empty
credentials with 400; a service failure that `errors.Is`-matches
`models.ErrUserAlreadyExists` gives 409, anything else 500; success
writes 201. -/
def AuthHandler.Register (secret : String) (expiration : Nat) (st : ServerState)
    (username password : String) (uid salt now : Nat) : Nat × ServerState :=
  if username == "" || password == "" then (400, st)
  else
    match AuthService.Register secret expiration st username password uid salt now with
    | (.error e, st1) =>
      if errorIs e .errUserAlreadyExistsModels then (409, st1) else (500, st1)
    | (.ok _, st1) => (201, st1)

/-- Go `AuthHandler.Login` (auth_handler.go): validator rejects empty
credentials with 400; a failure that `errors.Is`-matches
`services.ErrInvalidCredentials` gives 401, anything else 500; success
writes 200. -/
def AuthHandler.Login (secret : String) (expiration : Nat) (st : ServerState)
    (username password : String) (now : Nat) : Nat :=
  if username == "" || password == "" then 400
  else
    match AuthService.Login secret expiration st username password now with
    | .error e => if errorIs e .errInvalidCredentials then 401 else 500
    | .ok _ => 200

/-- An HTTP outcome: a written status code, or no response because the
request goroutine panicked. -/
inductive HttpOut where
  | status (code : Nat)
  | crashed
deriving DecidableEq, Repr

/-- Go `ItemHandler.GetItem` (item_handler.go): `ErrItemNotFound` (matched
with `errors.Is` through the service wrap) gives 404, other failures 500,
success 200. -/
def ItemHandler.GetItem (masterKey : Bytes) (g : Nat → Nat) (off : Nat)
    (st : ServerState) (userID itemID : Nat) : HttpOut × ServerState :=
  match ItemService.GetItem masterKey g off st userID itemID with
  | (.panics, st1, _) => (.crashed, st1)
  | (.fail e, st1, _) =>
    if errorIs e .errItemNotFound then (.status 404, st1) else (.status 500, st1)
  | (.ok _, st1, _) => (.status 200, st1)

/-- Go `ItemHandler.UpdateItem` (item_handler.go): the
`ValidateUpdateItemRequest` validator rejects a request with all four
fields absent (`ErrNoFieldsToUpdate` → 400) before the service is called;
then `ErrInvalidItemType` gives 400, `ErrItemNotFound` 404, other failures
500, success 200. -/
def ItemHandler.UpdateItem (masterKey : Bytes) (g : Nat → Nat) (off : Nat)
    (st : ServerState) (userID itemID : Nat) (req : UpdateItemRequest)
    (newEncID now : Nat) : HttpOut × ServerState :=
  if req.type.isNone && req.title.isNone && req.metadata.isNone && req.dataBase64.isNone
  then (.status 400, st)
  else
  match ItemService.UpdateItem masterKey g off st userID itemID req newEncID now with
  | (.panics, st1, _) => (.crashed, st1)
  | (.fail e, st1, _) =>
    if errorIs e .errInvalidItemType then (.status 400, st1)
    else if errorIs e .errItemNotFound then (.status 404, st1)
    else (.status 500, st1)
  | (.ok _, st1, _) => (.status 200, st1)

/-- Go `ItemHandler.DeleteItem` (item_handler.go): `ErrItemNotFound` gives
404, other failures 500, success 204. -/
def ItemHandler.DeleteItem (st : ServerState) (userID itemID : Nat) :
    HttpOut × ServerState :=
  match ItemService.DeleteItem st userID itemID with
  | (.panics, st1) => (.crashed, st1)
  | (.fail e, st1) =>
    if errorIs e .errItemNotFound then (.status 404, st1) else (.status 500, st1)
  | (.ok _, st1) => (.status 204, st1)

/-- Go `ItemHandler.CreateItem` (item_handler.go): `ErrInvalidItemType` gives
400, other failures 500, success 201. -/
def ItemHandler.CreateItem (masterKey : Bytes) (g : Nat → Nat) (off : Nat)
    (st : ServerState) (req : CreateItemRequest)
    (userID newItemID newEncID now : Nat) : HttpOut × ServerState :=
  match ItemService.CreateItem masterKey g off st req userID newItemID newEncID now with
  | (.panics, st1, _) => (.crashed, st1)
  | (.fail e, st1, _) =>
    if errorIs e .errInvalidItemType then (.status 400, st1) else (.status 500, st1)
  | (.ok _, st1, _) => (.status 201, st1)

/-! ## Claim C6 — decrypt totality -/

/-- C6.  The claim states that for every ciphertext strictly shorter than
the 12-byte nonce size, `Decrypt` fails without crashing, while wrong key
size and tag failure also yield failures.  The key-size and tag parts hold
(conjuncts 3 and 4), but the short-ciphertext part is false in the code:
`crypto.Decrypt` slices `ciphertext[:nonceSize]` with no length guard, so
a 3-byte (or empty) ciphertext under a well-formed 32-byte key triggers a
slice-bounds runtime panic instead of returning an error (conjuncts 1 and
2). -/
theorem c6_decrypt_short_ciphertext_crashes :
    Decrypt (List.replicate 32 0) [1, 2, 3] = .panics
    ∧ Decrypt (List.replicate 32 0) [] = .panics
    ∧ Decrypt [0, 1, 2] [0, 1, 2, 3, 4, 5, 6, 7, 8, 9, 10, 11, 12] = .err
    ∧ Decrypt (List.replicate 32 0) (List.replicate 28 7) = .err := by
  refine ⟨by decide, by decide, by decide, ?_⟩
  decide

/-! ## Claim C3 — registration conflict -/

/-- C3.  The claim states that registering the same username twice returns
201 then 409.  The first registration does return 201, but the second
returns 500, not 409: `UserRepository.CreateUser` (part_009) returns the
`repositories.ErrUserAlreadyExists` sentinel, while `AuthService.Register`
(part_001) and `AuthHandler.Register` (auth_handler.go) match with
`errors.Is` against the distinct `models.ErrUserAlreadyExists` sentinel,
which never fires. -/
theorem c3_duplicate_username_returns_500_not_409 :
    (AuthHandler.Register "secret" 3600 ⟨[], [], [], []⟩ "alice" "x" 1 7 1000).1 = 201
    ∧ (AuthHandler.Register "secret" 3600
        (AuthHandler.Register "secret" 3600 ⟨[], [], [], []⟩ "alice" "x" 1 7 1000).2
        "alice" "x" 2 8 1001).1 = 500 := by
  decide

/-! ## Claim C4 — invalid-credentials collapse -/

/-- C4.  The claim states that an unknown username and a wrong password
both produce the same single 401 on login.  A wrong password does give
401, but an unknown username gives 500: `UserRepository.GetUserByUsername`
(part_009) returns the `repositories.ErrUserNotFound` sentinel, while
`AuthService.Login` (part_001) matches with `errors.Is` against the
distinct `models.ErrUserNotFound`, so the collapse to
`ErrInvalidCredentials` never fires and the two causes are
distinguishable. -/
theorem c4_unknown_username_distinguishable_from_wrong_password :
    AuthHandler.Login "secret" 3600
      (AuthHandler.Register "secret" 3600 ⟨[], [], [], []⟩ "alice" "s3cret" 1 7 1000).2
      "mallory" "anything" 1002 = 500
    ∧ AuthHandler.Login "secret" 3600
      (AuthHandler.Register "secret" 3600 ⟨[], [], [], []⟩ "alice" "s3cret" 1 7 1000).2
      "alice" "wrong" 1002 = 401 := by
  decide

/-! ## Claim C7 — token round trip and expiry -/

/-- C7.  A token issued for user `uid` at time `t` with the configured
lifetime validates to subject `uid` at every time from issuance up to (but
excluding) `t + expiration`; once the lifetime has elapsed, validation
fails (with the claims-validation error). -/
theorem c7_token_roundtrip_and_expiry (secret : String) (expiration uid t tv te : Nat)
    (h1 : t ≤ tv) (h2 : tv < t + expiration) (h3 : t + expiration ≤ te) :
    ValidateToken secret (GenerateToken secret expiration uid t) tv = .ok uid
    ∧ ValidateToken secret (GenerateToken secret expiration uid t) te
      = .error .errTokenExpired := by
  constructor
  · unfold ValidateToken GenerateToken
    rw [if_neg (by simp [Alg.isHMAC])]
    rw [if_neg (by simp)]
    rw [if_neg (by simp [claimsValid]; omega)]
    rfl
  · unfold ValidateToken GenerateToken
    rw [if_neg (by simp [Alg.isHMAC])]
    rw [if_neg (by simp)]
    rw [if_pos (by simp [claimsValid]; omega)]

/-- Witness for C7 at concrete inputs. -/
theorem c7_token_roundtrip_and_expiry_witness :
    (100 ≤ 105 ∧ 105 < 100 + 10 ∧ 100 + 10 ≤ 200)
    ∧ ValidateToken "s" (GenerateToken "s" 10 1 100) 105 = .ok 1
    ∧ ValidateToken "s" (GenerateToken "s" 10 1 100) 200 = .error .errTokenExpired :=
  ⟨⟨by omega, by omega, by omega⟩,
   (c7_token_roundtrip_and_expiry "s" 10 1 100 105 200 (by omega) (by omega) (by omega)).1,
   (c7_token_roundtrip_and_expiry "s" 10 1 100 105 200 (by omega) (by omega) (by omega)).2⟩

/-! ## Key-store infrastructure lemmas -/

/-- Invariant: every stored wrapped user key is a well-formed wrap of a
32-byte key under the master key (what `loadOrCreateKey` itself writes). -/
def GoodKeyStore (masterKey : Bytes) (st : ServerState) : Prop :=
  ∀ p ∈ st.keys, ∃ uk nonce, nonce.length = nonceSize ∧ uk.length = KeySize ∧
    p.2 = nonce ++ gcmSeal masterKey nonce uk

theorem validKeySize_of_KeySize {n : Nat} (h : n = KeySize) : validKeySize n = true := by
  rw [h]; decide

/-- Go `KeyRepository.Save` touches only the key table. -/
theorem KeyRepository.Save_fields (st : ServerState) (uid : Nat) (enc : Bytes) :
    (KeyRepository.Save st uid enc).users = st.users
    ∧ (KeyRepository.Save st uid enc).items = st.items
    ∧ (KeyRepository.Save st uid enc).encData = st.encData := by
  unfold KeyRepository.Save
  split <;> exact ⟨rfl, rfl, rfl⟩

/-- Auxiliary: after replacing the entry for `uid`, lookup finds the new
ciphertext. -/
theorem find?_replaceKey (ks : List (Nat × Bytes)) (uid : Nat) (enc : Bytes)
    (h : ks.any (fun p => p.1 == uid) = true) :
    (ks.map (fun p => if p.1 == uid then (uid, enc) else p)).find?
      (fun p => p.1 == uid) = some (uid, enc) := by
  induction ks with
  | nil => simp at h
  | cons hd tl ih =>
    simp only [List.map_cons]
    by_cases hh : hd.1 = uid
    · rw [if_pos (by simp [hh])]
      exact List.find?_cons_of_pos _ (by simp)
    · rw [if_neg (by simp [hh])]
      have hh' : (hd.1 == uid) = false := by simp [hh]
      have h' : (tl.any fun p => p.1 == uid) = true := by simpa [hh'] using h
      rw [List.find?_cons_of_neg _ (by simp [hh]), ih h']

/-- Auxiliary: appending a fresh entry for `uid` makes lookup find it. -/
theorem find?_appendKey (ks : List (Nat × Bytes)) (uid : Nat) (enc : Bytes)
    (h : ks.any (fun p => p.1 == uid) = false) :
    (ks ++ [(uid, enc)]).find? (fun p => p.1 == uid) = some (uid, enc) := by
  have hn : ks.find? (fun p => p.1 == uid) = none := by
    rw [List.find?_eq_none]
    intro x hx hpx
    have : ks.any (fun p => p.1 == uid) = true := List.any_eq_true.mpr ⟨x, hx, hpx⟩
    rw [h] at this
    exact Bool.false_ne_true this
  rw [List.find?_append, hn, Option.none_or]
  exact List.find?_cons_of_pos _ (by simp)

/-- Load after Save finds exactly the saved ciphertext. -/
theorem KeyRepository.Load_Save (st : ServerState) (uid : Nat) (enc : Bytes) :
    KeyRepository.Load (KeyRepository.Save st uid enc) uid = some enc := by
  unfold KeyRepository.Load KeyRepository.Save
  by_cases h : st.keys.any (fun p => p.1 == uid) = true
  · rw [if_pos h, find?_replaceKey st.keys uid enc h]
    rfl
  · rw [if_neg h]
    have h' : st.keys.any (fun p => p.1 == uid) = false := by
      revert h; cases st.keys.any (fun p => p.1 == uid) <;> simp
    rw [find?_appendKey st.keys uid enc h']
    rfl

/-- Go `KeyRepository.Load` depends only on the key table. -/
theorem KeyRepository.Load_congr (st1 st2 : ServerState) (uid : Nat)
    (h : st2.keys = st1.keys) :
    KeyRepository.Load st2 uid = KeyRepository.Load st1 uid := by
  unfold KeyRepository.Load
  rw [h]

/-- Saving a well-formed wrap preserves the key-store invariant. -/
theorem GoodKeyStore_Save (mk : Bytes) (st : ServerState) (uid : Nat) (enc : Bytes)
    (hkeys : GoodKeyStore mk st)
    (henc : ∃ uk nonce, nonce.length = nonceSize ∧ uk.length = KeySize ∧
      enc = nonce ++ gcmSeal mk nonce uk) :
    GoodKeyStore mk (KeyRepository.Save st uid enc) := by
  unfold KeyRepository.Save
  split
  · intro p hp
    simp only at hp
    rcases List.mem_map.mp hp with ⟨q, hq, hg⟩
    by_cases hquid : q.1 = uid
    · rw [if_pos (by simp [hquid])] at hg
      subst hg
      exact henc
    · rw [if_neg (by simp [hquid])] at hg
      subst hg
      exact hkeys q hq
  · intro p hp
    simp only at hp
    rcases List.mem_append.mp hp with hmem | hmem
    · exact hkeys p hmem
    · rcases List.mem_singleton.mp hmem with rfl
      exact henc

/-- A loaded ciphertext comes from the key table. -/
theorem KeyRepository.Load_mem (st : ServerState) (uid : Nat) (enc : Bytes)
    (h : KeyRepository.Load st uid = some enc) :
    ∃ p ∈ st.keys, p.2 = enc := by
  unfold KeyRepository.Load at h
  cases hf : st.keys.find? (fun p => p.1 == uid) with
  | none => rw [hf] at h; simp at h
  | some p =>
    rw [hf] at h
    simp at h
    exact ⟨p, List.mem_of_find?_eq_some hf, h⟩

/-- When the stored wrapped key loads, is non-empty and unwraps, the
service just returns the unwrapped key and changes nothing. -/
theorem loadOrCreateKey_of_load (mk : Bytes) (g : Nat → Nat) (off : Nat)
    (st : ServerState) (uid : Nat) (enc uk : Bytes)
    (hload : KeyRepository.Load st uid = some enc)
    (hpos : 0 < enc.length) (hdec : Decrypt mk enc = .ok uk) :
    ItemService.loadOrCreateKey mk g off st uid = (.ok uk, st, off) := by
  simp only [ItemService.loadOrCreateKey, hload, if_pos hpos, hdec]

/-- A well-formed wrap is non-empty. -/
theorem wrap_length_pos (mk nonce uk : Bytes) (hn : nonce.length = nonceSize) :
    0 < (nonce ++ gcmSeal mk nonce uk).length := by
  simp only [List.length_append, gcmSeal_length, hn, nonceSize, tagSize]
  omega

/-- Master lemma for `ItemService.loadOrCreateKey` over a good key store
with a well-formed master key: it succeeds with a 32-byte user key,
touches nothing but the key table, keeps the store good, and — crucially —
any later call on any state carrying the same key table returns the *same*
user key without changing anything. -/
theorem loadOrCreateKey_ok (mk : Bytes) (g : Nat → Nat) (off : Nat) (st : ServerState)
    (uid : Nat) (hkeys : GoodKeyStore mk st) (hmk : mk.length = KeySize) :
    ∃ uk st1 off1,
      ItemService.loadOrCreateKey mk g off st uid = (.ok uk, st1, off1)
      ∧ uk.length = KeySize
      ∧ st1.users = st.users ∧ st1.items = st.items ∧ st1.encData = st.encData
      ∧ GoodKeyStore mk st1
      ∧ ∀ g2 off2 st2, st2.keys = st1.keys →
          ItemService.loadOrCreateKey mk g2 off2 st2 uid = (.ok uk, st2, off2) := by
  have hvk : validKeySize mk.length = true := validKeySize_of_KeySize hmk
  cases hload : KeyRepository.Load st uid with
  | some keyEncrypted =>
    rcases KeyRepository.Load_mem st uid keyEncrypted hload with ⟨p, hpmem, hp2⟩
    rcases hkeys p hpmem with ⟨uk, nonce, hn, hu, hwrap⟩
    have henc : keyEncrypted = nonce ++ gcmSeal mk nonce uk := by rw [← hp2, hwrap]
    have hpos : 0 < keyEncrypted.length := by
      rw [henc]; exact wrap_length_pos mk nonce uk hn
    have hdec : Decrypt mk keyEncrypted = .ok uk := by
      rw [henc]; exact Decrypt_Encrypt mk nonce uk hvk hn
    refine ⟨uk, st, off,
      loadOrCreateKey_of_load mk g off st uid keyEncrypted uk hload hpos hdec,
      hu, rfl, rfl, rfl, hkeys, ?_⟩
    intro g2 off2 st2 hk2
    have hload2 : KeyRepository.Load st2 uid = some keyEncrypted := by
      rw [KeyRepository.Load_congr st st2 uid hk2, hload]
    exact loadOrCreateKey_of_load mk g2 off2 st2 uid keyEncrypted uk hload2 hpos hdec
  | none =>
    have huk : (KeyGen g off).length = KeySize := KeyGen_length g off
    have hnl : (randBytes g (off + KeySize) nonceSize).length = nonceSize :=
      randBytes_length g (off + KeySize) nonceSize
    have hE : Encrypt mk (randBytes g (off + KeySize) nonceSize) (KeyGen g off)
        = some (randBytes g (off + KeySize) nonceSize ++
            gcmSeal mk (randBytes g (off + KeySize) nonceSize) (KeyGen g off)) :=
      Encrypt_eq mk (randBytes g (off + KeySize) nonceSize) (KeyGen g off) hvk
    set enc := randBytes g (off + KeySize) nonceSize ++
      gcmSeal mk (randBytes g (off + KeySize) nonceSize) (KeyGen g off) with hencdef
    have hrun : ItemService.loadOrCreateKey mk g off st uid
        = (.ok (KeyGen g off), KeyRepository.Save st uid enc, off + KeySize + nonceSize) := by
      simp only [ItemService.loadOrCreateKey, hload, ItemService.generateAndSaveKey, hE]
    have hgood1 : GoodKeyStore mk (KeyRepository.Save st uid enc) :=
      GoodKeyStore_Save mk st uid enc hkeys
        ⟨KeyGen g off, randBytes g (off + KeySize) nonceSize, hnl, huk, hencdef⟩
    have hload1 : KeyRepository.Load (KeyRepository.Save st uid enc) uid = some enc :=
      KeyRepository.Load_Save st uid enc
    have hpos : 0 < enc.length := by
      rw [hencdef]
      exact wrap_length_pos mk (randBytes g (off + KeySize) nonceSize) (KeyGen g off) hnl
    have hdec : Decrypt mk enc = .ok (KeyGen g off) := by
      rw [hencdef]
      exact Decrypt_Encrypt mk (randBytes g (off + KeySize) nonceSize) (KeyGen g off) hvk hnl
    refine ⟨KeyGen g off, KeyRepository.Save st uid enc, off + KeySize + nonceSize,
      hrun, huk,
      (KeyRepository.Save_fields st uid enc).1,
      (KeyRepository.Save_fields st uid enc).2.1,
      (KeyRepository.Save_fields st uid enc).2.2, hgood1, ?_⟩
    intro g2 off2 st2 hk2
    have hload2 : KeyRepository.Load st2 uid = some enc := by
      rw [KeyRepository.Load_congr (KeyRepository.Save st uid enc) st2 uid hk2, hload1]
    exact loadOrCreateKey_of_load mk g2 off2 st2 uid enc (KeyGen g off) hload2 hpos hdec

/-- Go `generateAndSaveKey` never touches users, items or encrypted data. -/
theorem generateAndSaveKey_preserves (mk : Bytes) (g : Nat → Nat) (off : Nat)
    (st : ServerState) (uid : Nat) :
    ((ItemService.generateAndSaveKey mk g off st uid).2.1).users = st.users
    ∧ ((ItemService.generateAndSaveKey mk g off st uid).2.1).items = st.items
    ∧ ((ItemService.generateAndSaveKey mk g off st uid).2.1).encData = st.encData := by
  simp only [ItemService.generateAndSaveKey]
  cases hE : Encrypt mk (randBytes g (off + KeySize) nonceSize) (KeyGen g off) with
  | none => exact ⟨rfl, rfl, rfl⟩
  | some enc => exact KeyRepository.Save_fields st uid enc

/-- Go `loadOrCreateKey` never touches users, items or encrypted data,
whatever its outcome. -/
theorem loadOrCreateKey_preserves (mk : Bytes) (g : Nat → Nat) (off : Nat)
    (st : ServerState) (uid : Nat) :
    ((ItemService.loadOrCreateKey mk g off st uid).2.1).users = st.users
    ∧ ((ItemService.loadOrCreateKey mk g off st uid).2.1).items = st.items
    ∧ ((ItemService.loadOrCreateKey mk g off st uid).2.1).encData = st.encData := by
  cases hload : KeyRepository.Load st uid with
  | some keyEncrypted =>
    simp only [ItemService.loadOrCreateKey, hload]
    by_cases hpos : 0 < keyEncrypted.length
    · rw [if_pos hpos]
      cases Decrypt mk keyEncrypted <;> exact ⟨rfl, rfl, rfl⟩
    · rw [if_neg hpos]
      exact generateAndSaveKey_preserves mk g off st uid
  | none =>
    simp only [ItemService.loadOrCreateKey, hload]
    exact generateAndSaveKey_preserves mk g off st uid

/-! ## Envelope-encryption lemmas -/

/-- Master lemma for `ItemService.buildEncData` over a good key store:
it succeeds, touches nothing but the key table, and the produced record
has the requested ids, a non-empty ciphertext, and decrypts back to the
payload through the stored user key. -/
theorem buildEncData_spec (mk : Bytes) (g : Nat → Nat) (off : Nat) (st : ServerState)
    (uid eid iid : Nat) (payload : Bytes)
    (hkeys : GoodKeyStore mk st) (hmk : mk.length = KeySize) :
    ∃ ed st1 off1 uk,
      ItemService.buildEncData mk g off st uid eid iid payload = (.ok ed, st1, off1)
      ∧ st1.users = st.users ∧ st1.items = st.items ∧ st1.encData = st.encData
      ∧ GoodKeyStore mk st1
      ∧ (∀ g2 off2 st2, st2.keys = st1.keys →
          ItemService.loadOrCreateKey mk g2 off2 st2 uid = (.ok uk, st2, off2))
      ∧ ed.id = eid ∧ ed.itemID = iid
      ∧ 0 < ed.dataEncrypted.length
      ∧ (∃ dk, Decrypt uk ed.dataKeyEncrypted = .ok dk
          ∧ Decrypt dk ed.dataEncrypted = .ok payload) := by
  rcases loadOrCreateKey_ok mk g off st uid hkeys hmk with
    ⟨uk, st1, off1, hrun, hukl, hu, hi, he, hg1, hstable⟩
  have hdk : (KeyGen g off1).length = KeySize := KeyGen_length g off1
  have hvdk : validKeySize (KeyGen g off1).length = true := validKeySize_of_KeySize hdk
  have hvuk : validKeySize uk.length = true := validKeySize_of_KeySize hukl
  have hn1 : (randBytes g (off1 + KeySize) nonceSize).length = nonceSize :=
    randBytes_length g (off1 + KeySize) nonceSize
  have hn2 : (randBytes g (off1 + KeySize + nonceSize) nonceSize).length = nonceSize :=
    randBytes_length g (off1 + KeySize + nonceSize) nonceSize
  have hE1 := Encrypt_eq (KeyGen g off1) (randBytes g (off1 + KeySize) nonceSize) payload hvdk
  have hE2 := Encrypt_eq uk (randBytes g (off1 + KeySize + nonceSize) nonceSize)
    (KeyGen g off1) hvuk
  refine ⟨{ id := eid, itemID := iid,
            dataEncrypted := randBytes g (off1 + KeySize) nonceSize ++
              gcmSeal (KeyGen g off1) (randBytes g (off1 + KeySize) nonceSize) payload,
            dataKeyEncrypted := randBytes g (off1 + KeySize + nonceSize) nonceSize ++
              gcmSeal uk (randBytes g (off1 + KeySize + nonceSize) nonceSize) (KeyGen g off1) },
          st1, off1 + KeySize + nonceSize + nonceSize, uk,
          ?_, hu, hi, he, hg1, hstable, rfl, rfl, ?_, ?_⟩
  · simp only [ItemService.buildEncData, hrun, hE1, hE2]
  · exact wrap_length_pos (KeyGen g off1) (randBytes g (off1 + KeySize) nonceSize) payload hn1
  · exact ⟨KeyGen g off1,
      Decrypt_Encrypt uk (randBytes g (off1 + KeySize + nonceSize) nonceSize)
        (KeyGen g off1) hvuk hn2,
      Decrypt_Encrypt (KeyGen g off1) (randBytes g (off1 + KeySize) nonceSize)
        payload hvdk hn1⟩

/-- Go `buildEncData` never touches users, items or encrypted data,
whatever its outcome. -/
theorem buildEncData_preserves (mk : Bytes) (g : Nat → Nat) (off : Nat) (st : ServerState)
    (uid eid iid : Nat) (payload : Bytes) :
    ((ItemService.buildEncData mk g off st uid eid iid payload).2.1).users = st.users
    ∧ ((ItemService.buildEncData mk g off st uid eid iid payload).2.1).items = st.items
    ∧ ((ItemService.buildEncData mk g off st uid eid iid payload).2.1).encData = st.encData := by
  have hpres := loadOrCreateKey_preserves mk g off st uid
  rcases hq : ItemService.loadOrCreateKey mk g off st uid with ⟨r, st1, off1⟩
  simp only [hq] at hpres
  simp only [ItemService.buildEncData, hq]
  cases r with
  | panics => dsimp only; exact hpres
  | fail e => dsimp only; exact hpres
  | ok uk =>
    dsimp only
    cases Encrypt (KeyGen g off1) (randBytes g (off1 + KeySize) nonceSize) payload with
    | none => exact hpres
    | some de =>
      dsimp only
      cases Encrypt uk (randBytes g (off1 + KeySize + nonceSize) nonceSize) (KeyGen g off1) with
      | none => exact hpres
      | some dke => exact hpres

/-! ## Ownership-filter lemmas -/

/-- When no item row matches the composite (id, user_id), the row lookup
comes up empty. -/
theorem find?_item_none (items : List Item) (uid iid : Nat)
    (h : ∀ it ∈ items, ¬(it.id = iid ∧ it.userID = uid)) :
    items.find? (fun it => it.id == iid && it.userID == uid) = none := by
  rw [List.find?_eq_none]
  intro it hit hb
  apply h it hit
  simpa using hb

theorem any_item_false (items : List Item) (uid iid : Nat)
    (h : ∀ it ∈ items, ¬(it.id = iid ∧ it.userID = uid)) :
    items.any (fun it => it.id == iid && it.userID == uid) = false := by
  cases hb : items.any (fun it => it.id == iid && it.userID == uid) with
  | false => rfl
  | true =>
    rcases List.any_eq_true.mp hb with ⟨it, hit, hpit⟩
    exact absurd (by simpa using hpit) (h it hit)

theorem repoUpdate_notFound (st : ServerState) (uid iid : Nat) (req : UpdateItemRequest)
    (encOpt : Option EncryptedData) (now : Nat)
    (hfind : st.items.find? (fun it => it.id == iid && it.userID == uid) = none) :
    ItemRepository.Update st uid iid req encOpt now = (.error .errItemNotFound, st) := by
  simp only [ItemRepository.Update, hfind]

theorem string_beq_empty_false (s0 : String) (hs : 0 < s0.length) : (s0 == "") = false := by
  cases hb : s0 == "" with
  | false => rfl
  | true =>
    have : s0 = "" := by simpa using hb
    subst this
    simp at hs

theorem decodeBase64_ok (s0 : String) (p : Bytes) (h : b64DecodeGo s0 = some p)
    (hne : (s0 == "") = false) : decodeBase64 s0 = .ok p := by
  simp only [decodeBase64, hne, Bool.false_eq_true, if_false, h]

/-- When no row matches (id, user id), the full update pipeline fails with
the wrapped `ErrItemNotFound`, regardless of the request's payload field
(the request must only be well-formed enough to get past type check,
decoding and key handling). -/
theorem updateBody_notFound (mk : Bytes) (g : Nat → Nat) (off : Nat)
    (st : ServerState) (uid iid : Nat) (req : UpdateItemRequest) (eid now : Nat)
    (habs : ∀ it ∈ st.items, ¬(it.id = iid ∧ it.userID = uid))
    (hpl : ∀ s0, req.dataBase64 = some s0 → 0 < s0.length → (b64DecodeGo s0).isSome = true)
    (hkeys : GoodKeyStore mk st) (hmk : mk.length = KeySize) :
    ∃ stx offx, ItemService.updateBody mk g off st uid iid req eid now
      = (.fail (.wrap "failed to update item" .errItemNotFound), stx, offx) := by
  have hfind := find?_item_none st.items uid iid habs
  cases hdb : req.dataBase64 with
  | none =>
    refine ⟨st, off, ?_⟩
    simp only [ItemService.updateBody, hdb,
      repoUpdate_notFound st uid iid req none now hfind]
  | some s0 =>
    by_cases hs : 0 < s0.length
    · have hiss := hpl s0 hdb hs
      rcases Option.isSome_iff_exists.mp hiss with ⟨p, hp⟩
      have hdec : decodeBase64 s0 = .ok p :=
        decodeBase64_ok s0 p hp (string_beq_empty_false s0 hs)
      rcases buildEncData_spec mk g off st uid eid iid p hkeys hmk with
        ⟨ed, st1, off1, uk, hbuild, hu1, hi1, he1, hg1, hstable, hedid, hediid, hpos, hdk⟩
      have hfind1 : st1.items.find? (fun it => it.id == iid && it.userID == uid) = none := by
        rw [hi1]; exact hfind
      refine ⟨st1, off1, ?_⟩
      simp only [ItemService.updateBody, hdb, if_pos hs, hdec, hbuild,
        repoUpdate_notFound st1 uid iid req (some ed) now hfind1]
    · refine ⟨st, off, ?_⟩
      simp only [ItemService.updateBody, hdb, if_neg hs,
        repoUpdate_notFound st uid iid req none now hfind]

/-- C2.  Ownership collapse: when no item row exists with the given id
*and* the caller as owner — whether the id does not exist at all or the
item belongs to another user — get, update and delete all surface the one
`ErrItemNotFound` outcome, which each handler maps to HTTP 404 (there is
no distinct unauthorized outcome); every lookup filters by the composite
(id, user_id).  The update request must pass the handler's
`ValidateUpdateItemRequest` gate, i.e. supply at least one of the four
fields (`hne`); an all-fields-absent body is rejected with 400 before any
lookup. -/
theorem c2_ownership_collapse_404 (mk : Bytes) (g : Nat → Nat) (off : Nat)
    (st : ServerState) (uid iid : Nat) (req : UpdateItemRequest) (eid now : Nat)
    (habs : ∀ it ∈ st.items, ¬(it.id = iid ∧ it.userID = uid))
    (hne : (req.type.isNone && req.title.isNone && req.metadata.isNone
      && req.dataBase64.isNone) = false)
    (hty : ∀ t, req.type = some t → isValidType t = true)
    (hpl : ∀ s0, req.dataBase64 = some s0 → 0 < s0.length → (b64DecodeGo s0).isSome = true)
    (hkeys : GoodKeyStore mk st) (hmk : mk.length = KeySize) :
    (ItemHandler.GetItem mk g off st uid iid).1 = .status 404
    ∧ (ItemHandler.UpdateItem mk g off st uid iid req eid now).1 = .status 404
    ∧ (ItemHandler.DeleteItem st uid iid).1 = .status 404 := by
  have hfind := find?_item_none st.items uid iid habs
  have hget : ItemRepository.GetByID st uid iid = .error .errItemNotFound := by
    simp only [ItemRepository.GetByID, hfind]
  have hne' : ¬ ((req.type.isNone && req.title.isNone && req.metadata.isNone
      && req.dataBase64.isNone) = true) := by
    rw [hne]; exact Bool.false_ne_true
  refine ⟨?_, ?_, ?_⟩
  · simp only [ItemHandler.GetItem, ItemService.GetItem, hget]
    rfl
  · rcases updateBody_notFound mk g off st uid iid req eid now habs hpl hkeys hmk with
      ⟨stx, offx, hbody⟩
    cases hts : req.type with
    | none =>
      simp only [ItemHandler.UpdateItem]
      rw [if_neg hne']
      simp only [ItemService.UpdateItem, hts, hbody]
      rfl
    | some t =>
      have hvt : isValidType t = true := hty t hts
      simp only [ItemHandler.UpdateItem]
      rw [if_neg hne']
      simp only [ItemService.UpdateItem, hts, hvt, hbody]
      rfl
  · have hany := any_item_false st.items uid iid habs
    simp only [ItemHandler.DeleteItem, ItemService.DeleteItem, ItemRepository.DeleteByID,
      hany, Bool.false_eq_true, if_false]
    rfl

/-- Witness for C2 at a concrete state: the store holds one item owned by
user 1; user 2 sends a get, a delete, and a title-only update (a body that
passes the at-least-one-field validation) for it and receives 404 from all
three endpoints. -/
theorem c2_ownership_collapse_404_witness :
    (ItemHandler.GetItem (List.replicate 32 0) (fun _ => 0) 0
      ⟨[], [], [⟨9, 1, "text", "t", "", 0, 0⟩], []⟩ 2 9).1 = .status 404
    ∧ (ItemHandler.UpdateItem (List.replicate 32 0) (fun _ => 0) 0
      ⟨[], [], [⟨9, 1, "text", "t", "", 0, 0⟩], []⟩ 2 9
      ⟨none, some "new", none, none⟩ 0 0).1 = .status 404
    ∧ (ItemHandler.DeleteItem ⟨[], [], [⟨9, 1, "text", "t", "", 0, 0⟩], []⟩ 2 9).1
      = .status 404 :=
  c2_ownership_collapse_404 (List.replicate 32 0) (fun _ => 0) 0
    ⟨[], [], [⟨9, 1, "text", "t", "", 0, 0⟩], []⟩ 2 9 ⟨none, some "new", none, none⟩ 0 0
    (by intro it hit; simp at hit; subst hit; simp)
    (by rfl)
    (by intro t ht; simp at ht)
    (by intro s0 hs0; simp at hs0)
    (by intro p hp; simp at hp)
    (by decide)

/-! ## Claim C9 — malformed payload on create -/

/-- C9.  On create: a non-empty `data_base64` that is not valid base64
makes the operation fail with the state left exactly as before (no item
row, no encrypted-data row); an empty `data_base64` creates the item with
no payload — the only state change is the new item row, and no
encrypted-data row is written. -/
theorem c9_create_malformed_or_empty_payload (mk : Bytes) (g : Nat → Nat) (off : Nat)
    (st : ServerState) (req : CreateItemRequest) (uid nid eid now : Nat) :
    (req.dataBase64 ≠ "" → b64DecodeGo req.dataBase64 = none →
      ∃ e, ItemService.CreateItem mk g off st req uid nid eid now = (.fail e, st, off))
    ∧ (req.dataBase64 = "" → isValidType req.type = true →
      (∀ it ∈ st.items, it.id ≠ nid) →
      ∃ item, ItemService.CreateItem mk g off st req uid nid eid now
        = (.ok item, { st with items := st.items ++ [item] }, off)
        ∧ item.id = nid ∧ item.userID = uid ∧ item.type = req.type
        ∧ item.title = req.title ∧ item.metadata = req.metadata) := by
  constructor
  · intro hne hbad
    by_cases hty : isValidType req.type = true
    · have hbeq : (req.dataBase64 == "") = false := by
        cases hb : req.dataBase64 == "" with
        | false => rfl
        | true => exact absurd (by simpa using hb) hne
      have hdec : decodeBase64 req.dataBase64
          = .error (.wrap "failed to decode base64" .errBase64Corrupt) := by
        simp only [decodeBase64, hbeq, Bool.false_eq_true, if_false, hbad]
      refine ⟨.wrap "failed to decode base64 data"
        (.wrap "failed to decode base64" .errBase64Corrupt), ?_⟩
      simp [ItemService.CreateItem, hty, hdec]
    · refine ⟨.errInvalidItemType, ?_⟩
      simp [ItemService.CreateItem, hty]
  · intro hemp hty hfresh
    have hdec : decodeBase64 req.dataBase64 = .ok [] := by
      simp [decodeBase64, hemp]
    have hanyf : (st.items.any fun it => it.id == nid) = false := by
      cases hb : st.items.any (fun it => it.id == nid) with
      | false => rfl
      | true =>
        rcases List.any_eq_true.mp hb with ⟨it, hit, hpit⟩
        exact absurd (by simpa using hpit) (hfresh it hit)
    refine ⟨{ id := nid, userID := uid, type := req.type, title := req.title,
              metadata := req.metadata, createdAt := now, updatedAt := now },
            ?_, rfl, rfl, rfl, rfl, rfl⟩
    simp [ItemService.CreateItem, hty, hdec, ItemRepository.Create, hanyf]

/-- Witness for C9: an invalid base64 payload `"!!!"` is rejected with no
state change; an empty payload creates a bare item row. -/
theorem c9_create_malformed_or_empty_payload_witness :
    (∃ e, ItemService.CreateItem (List.replicate 32 0) (fun _ => 0) 0 ⟨[], [], [], []⟩
        ⟨"text", "t", "", "!!!"⟩ 1 5 6 0 = (.fail e, ⟨[], [], [], []⟩, 0))
    ∧ (∃ item, ItemService.CreateItem (List.replicate 32 0) (fun _ => 0) 0 ⟨[], [], [], []⟩
        ⟨"text", "t", "", ""⟩ 1 5 6 0
        = (.ok item, { (⟨[], [], [], []⟩ : ServerState) with items := [] ++ [item] }, 0)
        ∧ item.id = 5 ∧ item.userID = 1 ∧ item.type = "text"
        ∧ item.title = "t" ∧ item.metadata = "") :=
  ⟨(c9_create_malformed_or_empty_payload (List.replicate 32 0) (fun _ => 0) 0
      ⟨[], [], [], []⟩ ⟨"text", "t", "", "!!!"⟩ 1 5 6 0).1 (by decide) (by decide),
   (c9_create_malformed_or_empty_payload (List.replicate 32 0) (fun _ => 0) 0
      ⟨[], [], [], []⟩ ⟨"text", "t", "", ""⟩ 1 5 6 0).2 rfl (by decide)
      (by intro it hit; simp at hit)⟩

/-! ## Claim C5 — partial update (COALESCE semantics) -/

/-- A successful repository update found a row matching the composite key
and produced exactly its COALESCE combination with the request, which is
stored back. -/
theorem repoUpdate_ok (st : ServerState) (uid iid : Nat) (req : UpdateItemRequest)
    (encOpt : Option EncryptedData) (now : Nat) (item1 : Item) (st1 : ServerState)
    (h : ItemRepository.Update st uid iid req encOpt now = (.ok item1, st1)) :
    ∃ old ∈ st.items, (old.id == iid && old.userID == uid) = true
      ∧ item1 = coalesceItem old req now ∧ item1 ∈ st1.items := by
  unfold ItemRepository.Update at h
  cases hf : st.items.find? (fun it => it.id == iid && it.userID == uid) with
  | none => rw [hf] at h; simp at h
  | some old =>
    rw [hf] at h
    dsimp only at h
    have hmem : old ∈ st.items := List.mem_of_find?_eq_some hf
    have hpred0 := List.find?_some hf
    have hpred : (old.id == iid && old.userID == uid) = true := hpred0
    have hmap : coalesceItem old req now ∈ st.items.map
        (fun it => if it.id == iid && it.userID == uid then coalesceItem old req now
         else it) :=
      List.mem_map.mpr ⟨old, hmem, by simp [hpred]⟩
    refine ⟨old, hmem, hpred, ?_⟩
    cases encOpt with
    | none =>
      simp only [Prod.mk.injEq, Except.ok.injEq] at h
      rcases h with ⟨h1, h2⟩
      subst h1
      exact ⟨rfl, by rw [← h2]; exact hmap⟩
    | some ed =>
      dsimp only at h
      by_cases hrep :
          (st.encData.any fun e => e.itemID == (coalesceItem old req now).id) = true
      · rw [if_pos hrep] at h
        simp only [Prod.mk.injEq, Except.ok.injEq] at h
        rcases h with ⟨h1, h2⟩
        subst h1
        exact ⟨rfl, by rw [← h2]; exact hmap⟩
      · rw [if_neg hrep] at h
        by_cases hid : (st.encData.any fun e => e.id == ed.id) = true
        · rw [if_pos hid] at h
          simp at h
        · rw [if_neg hid] at h
          simp only [Prod.mk.injEq, Except.ok.injEq] at h
          rcases h with ⟨h1, h2⟩
          subst h1
          exact ⟨rfl, by rw [← h2]; exact hmap⟩

/-- A successful `updateBody` is a successful repository update run on a
state with the same item table. -/
theorem updateBody_ok (mk : Bytes) (g : Nat → Nat) (off : Nat) (st : ServerState)
    (uid iid : Nat) (req : UpdateItemRequest) (eid now : Nat) (item1 : Item)
    (st1 : ServerState) (off1 : Nat)
    (h : ItemService.updateBody mk g off st uid iid req eid now = (.ok item1, st1, off1)) :
    ∃ stb encOpt, stb.items = st.items
      ∧ ItemRepository.Update stb uid iid req encOpt now = (.ok item1, st1) := by
  cases hdb : req.dataBase64 with
  | none =>
    simp only [ItemService.updateBody, hdb] at h
    rcases hr : ItemRepository.Update st uid iid req none now with ⟨r, st2⟩
    rw [hr] at h
    cases r with
    | error e => simp at h
    | ok it =>
      dsimp only at h
      simp only [Prod.mk.injEq, SvcOut.ok.injEq] at h
      rcases h with ⟨h1, h2, h3⟩
      subst h1; subst h2
      exact ⟨st, none, rfl, hr⟩
  | some s0 =>
    by_cases hs : 0 < s0.length
    · simp only [ItemService.updateBody, hdb, if_pos hs] at h
      cases hd : decodeBase64 s0 with
      | error e => rw [hd] at h; simp at h
      | ok payload =>
        rw [hd] at h
        dsimp only at h
        rcases hb : ItemService.buildEncData mk g off st uid eid iid payload with
          ⟨rb, stb, offb⟩
        rw [hb] at h
        cases rb with
        | panics => simp at h
        | fail e => simp at h
        | ok ed =>
          dsimp only at h
          rcases hr : ItemRepository.Update stb uid iid req (some ed) now with ⟨r, st2⟩
          rw [hr] at h
          cases r with
          | error e => simp at h
          | ok it =>
            dsimp only at h
            simp only [Prod.mk.injEq, SvcOut.ok.injEq] at h
            rcases h with ⟨h1, h2, h3⟩
            subst h1; subst h2
            have hpres := buildEncData_preserves mk g off st uid eid iid payload
            rw [hb] at hpres
            exact ⟨stb, some ed, hpres.2.1, hr⟩
    · simp only [ItemService.updateBody, hdb, if_neg hs] at h
      rcases hr : ItemRepository.Update st uid iid req none now with ⟨r, st2⟩
      rw [hr] at h
      cases r with
      | error e => simp at h
      | ok it =>
        dsimp only at h
        simp only [Prod.mk.injEq, SvcOut.ok.injEq] at h
        rcases h with ⟨h1, h2, h3⟩
        subst h1; subst h2
        exact ⟨st, none, rfl, hr⟩

/-- C5.  Every successful item update satisfies the partial-update
contract: the updated row comes from a stored row matching (id, owner);
type, title and metadata each take the request's value exactly when the
request supplies the field (a supplied empty string sets the field to
empty), otherwise the stored value is kept; `updated_at` is set to the
current time; id, owner and `created_at` are untouched; and the updated
row is stored back. -/
theorem c5_partial_update_coalesce (mk : Bytes) (g : Nat → Nat) (off : Nat)
    (st : ServerState) (uid iid : Nat) (req : UpdateItemRequest) (eid now : Nat)
    (item1 : Item) (st1 : ServerState) (off1 : Nat)
    (h : ItemService.UpdateItem mk g off st uid iid req eid now = (.ok item1, st1, off1)) :
    ∃ old ∈ st.items, old.id = iid ∧ old.userID = uid
      ∧ item1.type = req.type.getD old.type
      ∧ item1.title = req.title.getD old.title
      ∧ item1.metadata = req.metadata.getD old.metadata
      ∧ item1.updatedAt = now
      ∧ item1.id = old.id ∧ item1.userID = old.userID ∧ item1.createdAt = old.createdAt
      ∧ item1 ∈ st1.items := by
  have hbody : ItemService.updateBody mk g off st uid iid req eid now
      = (.ok item1, st1, off1) := by
    cases hts : req.type with
    | none => simpa only [ItemService.UpdateItem, hts] using h
    | some t =>
      simp only [ItemService.UpdateItem, hts] at h
      by_cases hvt : isValidType t = true
      · rwa [if_neg (by simp [hvt])] at h
      · rw [if_pos (by simp [hvt])] at h
        simp at h
  rcases updateBody_ok mk g off st uid iid req eid now item1 st1 off1 hbody with
    ⟨stb, encOpt, hitems, hr⟩
  rcases repoUpdate_ok stb uid iid req encOpt now item1 st1 hr with
    ⟨old, hmem, hpred, hco, hmem1⟩
  rw [hitems] at hmem
  have hpred' : old.id = iid ∧ old.userID = uid := by simpa using hpred
  refine ⟨old, hmem, hpred'.1, hpred'.2, ?_, ?_, ?_, ?_, ?_, ?_, ?_, hmem1⟩
    <;> rw [hco] <;> rfl

/-- Witness for C5: updating only the title of a stored item leaves type
and metadata untouched and stamps the update time. -/
theorem c5_partial_update_coalesce_witness :
    ∃ old ∈ ((⟨[], [], [⟨9, 1, "text", "orig", "M", 0, 0⟩], []⟩ : ServerState)).items,
      old.id = 9 ∧ old.userID = 1
      ∧ (⟨9, 1, "text", "new", "M", 0, 5⟩ : Item).type = (none : Option String).getD old.type
      ∧ (⟨9, 1, "text", "new", "M", 0, 5⟩ : Item).title = (some "new").getD old.title
      ∧ (⟨9, 1, "text", "new", "M", 0, 5⟩ : Item).metadata
        = (none : Option String).getD old.metadata
      ∧ (⟨9, 1, "text", "new", "M", 0, 5⟩ : Item).updatedAt = 5
      ∧ (⟨9, 1, "text", "new", "M", 0, 5⟩ : Item).id = old.id
      ∧ (⟨9, 1, "text", "new", "M", 0, 5⟩ : Item).userID = old.userID
      ∧ (⟨9, 1, "text", "new", "M", 0, 5⟩ : Item).createdAt = old.createdAt
      ∧ (⟨9, 1, "text", "new", "M", 0, 5⟩ : Item) ∈
        ((⟨[], [], [⟨9, 1, "text", "new", "M", 0, 5⟩], []⟩ : ServerState)).items :=
  c5_partial_update_coalesce (List.replicate 32 0) (fun _ => 0) 0
    ⟨[], [], [⟨9, 1, "text", "orig", "M", 0, 0⟩], []⟩
    1 9 ⟨none, some "new", none, none⟩ 0 5
    ⟨9, 1, "text", "new", "M", 0, 5⟩
    ⟨[], [], [⟨9, 1, "text", "new", "M", 0, 5⟩], []⟩
    0 (by decide)

/-! ## Claim C10 — update cannot remove a stored payload -/

theorem repoUpdate_none_encData (st : ServerState) (uid iid : Nat)
    (req : UpdateItemRequest) (now : Nat) :
    ((ItemRepository.Update st uid iid req none now).2).encData = st.encData := by
  cases hf : st.items.find? (fun it => it.id == iid && it.userID == uid) with
  | none => simp only [ItemRepository.Update, hf]
  | some old => simp only [ItemRepository.Update, hf]

/-- With no payload in the request (absent field or empty string), the
whole update pipeline leaves the encrypted-data table untouched. -/
theorem updateBody_encData_of_nopayload (mk : Bytes) (g : Nat → Nat) (off : Nat)
    (st : ServerState) (uid iid : Nat) (req : UpdateItemRequest) (eid now : Nat)
    (hdb : req.dataBase64 = none ∨ req.dataBase64 = some "") :
    ((ItemService.updateBody mk g off st uid iid req eid now).2.1).encData = st.encData := by
  rcases hr : ItemRepository.Update st uid iid req none now with ⟨r, st2⟩
  have henc : st2.encData = st.encData := by
    have hx := repoUpdate_none_encData st uid iid req now
    rw [hr] at hx
    exact hx
  rcases hdb with hdb | hdb
  · simp only [ItemService.updateBody, hdb, hr]
    cases r <;> exact henc
  · simp only [ItemService.updateBody, hdb]
    rw [if_neg (by decide)]
    rw [hr]
    cases r <;> exact henc

/-- Map preserving the id and item id of every row preserves row
membership up to those two fields. -/
theorem mem_map_preserving {f : EncryptedData → EncryptedData}
    (hf : ∀ e, (f e).id = e.id ∧ (f e).itemID = e.itemID)
    (l : List EncryptedData) (ed : EncryptedData) (hed : ed ∈ l) :
    ∃ ed' ∈ l.map f, ed'.id = ed.id ∧ ed'.itemID = ed.itemID :=
  ⟨f ed, List.mem_map_of_mem f hed, (hf ed).1, (hf ed).2⟩

/-- The repository update never deletes an encrypted-data row: every row
present before is still present after (same row id and item id; the upsert
may rewrite its ciphertext columns in place). -/
theorem repoUpdate_encData_preserved (st : ServerState) (uid iid : Nat)
    (req : UpdateItemRequest) (encOpt : Option EncryptedData) (now : Nat) :
    ∀ ed ∈ st.encData, ∃ ed' ∈ ((ItemRepository.Update st uid iid req encOpt now).2).encData,
      ed'.id = ed.id ∧ ed'.itemID = ed.itemID := by
  intro ed hed
  cases hf : st.items.find? (fun it => it.id == iid && it.userID == uid) with
  | none =>
    simp only [ItemRepository.Update, hf]
    exact ⟨ed, hed, rfl, rfl⟩
  | some old =>
    simp only [ItemRepository.Update, hf]
    cases encOpt with
    | none => exact ⟨ed, hed, rfl, rfl⟩
    | some ed0 =>
      dsimp only
      by_cases hrep :
          (st.encData.any fun e => e.itemID == (coalesceItem old req now).id) = true
      · rw [if_pos hrep]
        dsimp only
        refine mem_map_preserving ?_ st.encData ed hed
        intro e
        refine ⟨?_, ?_⟩ <;> (dsimp only; split <;> rfl)
      · rw [if_neg hrep]
        by_cases hid : (st.encData.any fun e => e.id == ed0.id) = true
        · rw [if_pos hid]
          exact ⟨ed, hed, rfl, rfl⟩
        · rw [if_neg hid]
          exact ⟨ed, List.mem_append_left _ hed, rfl, rfl⟩

/-- C10.  A present-but-empty `data_base64` in an update request leaves
the encrypted-data table byte-for-byte unchanged (only the metadata-field
changes of the request are applied to the item row), and more generally no
update request whatsoever deletes an existing encrypted-data row. -/
theorem c10_update_cannot_remove_payload (mk : Bytes) (g : Nat → Nat) (off : Nat)
    (st : ServerState) (uid iid : Nat) (req : UpdateItemRequest) (eid now : Nat) :
    (req.dataBase64 = some "" →
      ((ItemService.UpdateItem mk g off st uid iid req eid now).2.1).encData = st.encData)
    ∧ (∀ ed ∈ st.encData, ∃ ed',
        ed' ∈ ((ItemService.UpdateItem mk g off st uid iid req eid now).2.1).encData
        ∧ ed'.id = ed.id ∧ ed'.itemID = ed.itemID) := by
  constructor
  · intro hdb
    cases hts : req.type with
    | none =>
      simp only [ItemService.UpdateItem, hts]
      exact updateBody_encData_of_nopayload mk g off st uid iid req eid now (Or.inr hdb)
    | some t =>
      simp only [ItemService.UpdateItem, hts]
      by_cases hvt : isValidType t = true
      · rw [if_neg (by simp [hvt])]
        exact updateBody_encData_of_nopayload mk g off st uid iid req eid now (Or.inr hdb)
      · rw [if_pos (by simp [hvt])]
  · intro ed hed
    have hbody : ∃ ed',
        ed' ∈ ((ItemService.updateBody mk g off st uid iid req eid now).2.1).encData
        ∧ ed'.id = ed.id ∧ ed'.itemID = ed.itemID := by
      cases hdb : req.dataBase64 with
      | none =>
        simp only [ItemService.updateBody, hdb]
        rcases hr : ItemRepository.Update st uid iid req none now with ⟨r, st2⟩
        have hx := repoUpdate_encData_preserved st uid iid req none now ed hed
        rw [hr] at hx
        rcases hx with ⟨ed', hmem, h1, h2⟩
        cases r <;> (dsimp only; exact ⟨ed', hmem, h1, h2⟩)
      | some s0 =>
        by_cases hs : 0 < s0.length
        · simp only [ItemService.updateBody, hdb, if_pos hs]
          cases hd : decodeBase64 s0 with
          | error e => exact ⟨ed, hed, rfl, rfl⟩
          | ok payload =>
            dsimp only
            rcases hb : ItemService.buildEncData mk g off st uid eid iid payload with
              ⟨rb, stb, offb⟩
            have hpres := buildEncData_preserves mk g off st uid eid iid payload
            rw [hb] at hpres
            have hedb : ed ∈ stb.encData := by rw [hpres.2.2]; exact hed
            cases rb with
            | panics => dsimp only; exact ⟨ed, hedb, rfl, rfl⟩
            | fail e => dsimp only; exact ⟨ed, hedb, rfl, rfl⟩
            | ok ed0 =>
              dsimp only
              rcases hr : ItemRepository.Update stb uid iid req (some ed0) now with ⟨r, st2⟩
              have hx := repoUpdate_encData_preserved stb uid iid req (some ed0) now ed hedb
              rw [hr] at hx
              rcases hx with ⟨ed', hmem, h1, h2⟩
              cases r <;> (dsimp only; exact ⟨ed', hmem, h1, h2⟩)
        · simp only [ItemService.updateBody, hdb, if_neg hs]
          rcases hr : ItemRepository.Update st uid iid req none now with ⟨r, st2⟩
          have hx := repoUpdate_encData_preserved st uid iid req none now ed hed
          rw [hr] at hx
          rcases hx with ⟨ed', hmem, h1, h2⟩
          cases r <;> (dsimp only; exact ⟨ed', hmem, h1, h2⟩)
    cases hts : req.type with
    | none =>
      simp only [ItemService.UpdateItem, hts]
      exact hbody
    | some t =>
      simp only [ItemService.UpdateItem, hts]
      by_cases hvt : isValidType t = true
      · rw [if_neg (by simp [hvt])]
        exact hbody
      · rw [if_pos (by simp [hvt])]
        exact ⟨ed, hed, rfl, rfl⟩

/-- Witness for C10: an update carrying `data_base64 = ""` (plus a title
change) against a store with one encrypted payload leaves the
encrypted-data table unchanged. -/
theorem c10_update_cannot_remove_payload_witness :
    ((some "" : Option String) = some "" →
      ((ItemService.UpdateItem (List.replicate 32 0) (fun _ => 0) 0
        (⟨[], [], [⟨9, 1, "text", "t", "", 0, 0⟩], [⟨4, 9, [1, 2], [3, 4]⟩]⟩ : ServerState)
        1 9 ⟨none, some "new", none, some ""⟩ 7 5).2.1).encData = [⟨4, 9, [1, 2], [3, 4]⟩])
    ∧ (∀ ed ∈ ([⟨4, 9, [1, 2], [3, 4]⟩] : List EncryptedData), ∃ ed',
        ed' ∈ ((ItemService.UpdateItem (List.replicate 32 0) (fun _ => 0) 0
          (⟨[], [], [⟨9, 1, "text", "t", "", 0, 0⟩], [⟨4, 9, [1, 2], [3, 4]⟩]⟩ : ServerState)
          1 9 ⟨none, some "new", none, some ""⟩ 7 5).2.1).encData
        ∧ ed'.id = ed.id ∧ ed'.itemID = ed.itemID) :=
  c10_update_cannot_remove_payload (List.replicate 32 0) (fun _ => 0) 0
    ⟨[], [], [⟨9, 1, "text", "t", "", 0, 0⟩], [⟨4, 9, [1, 2], [3, 4]⟩]⟩
    1 9 ⟨none, some "new", none, some ""⟩ 7 5

/-! ## Claim C8 — write atomicity -/

/-- Referential integrity across the two tables: no encrypted-data row
without its item row. -/
def NoOrphans (st : ServerState) : Prop :=
  ∀ ed ∈ st.encData, ∃ it ∈ st.items, it.id = ed.itemID

/-- C8.  Transactional writes: whenever `ItemRepository.Create` or
`ItemRepository.Update` returns an error, the returned state is exactly
the pre-state (full rollback: in particular no item row survives a failed
paired encrypted-data insert, and no ciphertext row survives a failed
update), and both operations preserve the no-orphan invariant — the store
never holds a ciphertext row without its item row. -/
theorem c8_write_atomicity (st : ServerState) (item : Item)
    (encOpt : Option EncryptedData) (now : Nat) (uid iid now2 : Nat)
    (req : UpdateItemRequest) (encOpt2 : Option EncryptedData)
    (h : NoOrphans st) :
    ((∀ e st2, ItemRepository.Create st item encOpt now = (.error e, st2) → st2 = st)
      ∧ NoOrphans (ItemRepository.Create st item encOpt now).2)
    ∧ ((∀ e st2, ItemRepository.Update st uid iid req encOpt2 now2 = (.error e, st2) → st2 = st)
      ∧ NoOrphans (ItemRepository.Update st uid iid req encOpt2 now2).2) := by
  constructor
  · by_cases hc1 : (st.items.any fun it => it.id == item.id) = true
    · have hval : ItemRepository.Create st item encOpt now
          = (.error (.wrap "failed to create item" .errPgConflict), st) := by
        simp only [ItemRepository.Create]
        rw [if_pos hc1]
      rw [hval]
      refine ⟨fun e st2 hE => ?_, h⟩
      simp only [Prod.mk.injEq] at hE
      exact hE.2.symm
    · have hgrow : NoOrphans ⟨st.users, st.keys,
          st.items ++ [{ item with createdAt := now, updatedAt := now }], st.encData⟩ := by
        intro ed hed
        rcases h ed hed with ⟨it, hit, hid⟩
        exact ⟨it, List.mem_append_left _ hit, hid⟩
      cases encOpt with
      | none =>
        have hval : ItemRepository.Create st item none now
            = (.ok { item with createdAt := now, updatedAt := now },
               ⟨st.users, st.keys,
                st.items ++ [{ item with createdAt := now, updatedAt := now }],
                st.encData⟩) := by
          simp only [ItemRepository.Create]
          rw [if_neg hc1]
        rw [hval]
        exact ⟨fun e st2 hE => by simp at hE, hgrow⟩
      | some ed0 =>
        by_cases hc2 : (st.encData.any fun e =>
            e.id == ed0.id || e.itemID == item.id) = true
        · have hval : ItemRepository.Create st item (some ed0) now
              = (.error (.wrap "failed to create encrypted-data" .errPgConflict), st) := by
            simp only [ItemRepository.Create]
            rw [if_neg hc1]
            rw [if_pos hc2]
          rw [hval]
          refine ⟨fun e st2 hE => ?_, h⟩
          simp only [Prod.mk.injEq] at hE
          exact hE.2.symm
        · have hval : ItemRepository.Create st item (some ed0) now
              = (.ok { item with createdAt := now, updatedAt := now },
                 ⟨st.users, st.keys,
                  st.items ++ [{ item with createdAt := now, updatedAt := now }],
                  st.encData ++ [{ ed0 with itemID := item.id }]⟩) := by
            simp only [ItemRepository.Create]
            rw [if_neg hc1]
            rw [if_neg hc2]
          rw [hval]
          refine ⟨fun e st2 hE => by simp at hE, ?_⟩
          intro ed hed
          rcases List.mem_append.mp hed with hm | hm
          · rcases h ed hm with ⟨it, hit, hid⟩
            exact ⟨it, List.mem_append_left _ hit, hid⟩
          · rcases List.mem_singleton.mp hm with rfl
            exact ⟨{ item with createdAt := now, updatedAt := now },
              List.mem_append_right _ (List.mem_singleton.mpr rfl), rfl⟩
  · cases hf : st.items.find? (fun it => it.id == iid && it.userID == uid) with
    | none =>
      have hval : ItemRepository.Update st uid iid req encOpt2 now2
          = (.error .errItemNotFound, st) := by
        simp only [ItemRepository.Update, hf]
      rw [hval]
      refine ⟨fun e st2 hE => ?_, h⟩
      simp only [Prod.mk.injEq] at hE
      exact hE.2.symm
    | some old =>
      have hpred0 := List.find?_some hf
      have hpred : (old.id == iid && old.userID == uid) = true := hpred0
      have holdid : old.id = iid := by
        have hx := hpred
        simp at hx
        exact hx.1
      have hco : coalesceItem old req now2 ∈ st.items.map
          (fun it => if it.id == iid && it.userID == uid then coalesceItem old req now2
           else it) :=
        List.mem_map.mpr ⟨old, List.mem_of_find?_eq_some hf, by simp [hpred]⟩
      have hids : ∀ it2 ∈ st.items, ∃ it' ∈ st.items.map
          (fun it => if it.id == iid && it.userID == uid then coalesceItem old req now2
           else it), it'.id = it2.id := by
        intro it2 hit2
        refine ⟨_, List.mem_map_of_mem _ hit2, ?_⟩
        dsimp only
        split
        · rename_i hcnd
          have hc' : it2.id = iid ∧ it2.userID = uid := by simpa using hcnd
          simp [coalesceItem, holdid, hc'.1]
        · rfl
      have horph1 : NoOrphans ⟨st.users, st.keys,
          st.items.map (fun it => if it.id == iid && it.userID == uid then
            coalesceItem old req now2 else it), st.encData⟩ := by
        intro ed hed
        rcases h ed hed with ⟨it, hit, hid⟩
        rcases hids it hit with ⟨it', hit', hid'⟩
        exact ⟨it', hit', by rw [hid', hid]⟩
      cases encOpt2 with
      | none =>
        have hval : ItemRepository.Update st uid iid req none now2
            = (.ok (coalesceItem old req now2),
               ⟨st.users, st.keys,
                st.items.map (fun it => if it.id == iid && it.userID == uid then
                  coalesceItem old req now2 else it), st.encData⟩) := by
          simp only [ItemRepository.Update, hf]
        rw [hval]
        exact ⟨fun e st2 hE => by simp at hE, horph1⟩
      | some ed0 =>
        by_cases hrep :
            (st.encData.any fun e => e.itemID == (coalesceItem old req now2).id) = true
        · have hval : ItemRepository.Update st uid iid req (some ed0) now2
              = (.ok (coalesceItem old req now2),
                 ⟨st.users, st.keys,
                  st.items.map (fun it => if it.id == iid && it.userID == uid then
                    coalesceItem old req now2 else it),
                  st.encData.map (fun e =>
                    if e.itemID == (coalesceItem old req now2).id then
                      { e with dataEncrypted := ed0.dataEncrypted,
                               dataKeyEncrypted := ed0.dataKeyEncrypted }
                    else e)⟩) := by
            simp only [ItemRepository.Update, hf]
            rw [if_pos hrep]
          rw [hval]
          refine ⟨fun e st2 hE => by simp at hE, ?_⟩
          intro ed hed
          rcases List.mem_map.mp hed with ⟨e0, he0, hge⟩
          have hiid : ed.itemID = e0.itemID := by
            rw [← hge]
            by_cases hcc : (e0.itemID == (coalesceItem old req now2).id) = true
            · simp [hcc]
            · simp [hcc]
          rcases h e0 he0 with ⟨it, hit, hid⟩
          rcases hids it hit with ⟨it', hit', hid'⟩
          exact ⟨it', hit', by rw [hid', hid, hiid]⟩
        · by_cases hid2 : (st.encData.any fun e => e.id == ed0.id) = true
          · have hval : ItemRepository.Update st uid iid req (some ed0) now2
                = (.error (.wrap "failed to update encrypted-data" .errPgConflict), st) := by
              simp only [ItemRepository.Update, hf]
              rw [if_neg hrep, if_pos hid2]
            rw [hval]
            refine ⟨fun e st2 hE => ?_, h⟩
            simp only [Prod.mk.injEq] at hE
            exact hE.2.symm
          · have hval : ItemRepository.Update st uid iid req (some ed0) now2
                = (.ok (coalesceItem old req now2),
                   ⟨st.users, st.keys,
                    st.items.map (fun it => if it.id == iid && it.userID == uid then
                      coalesceItem old req now2 else it),
                    st.encData ++ [{ ed0 with itemID := (coalesceItem old req now2).id }]⟩) := by
              simp only [ItemRepository.Update, hf]
              rw [if_neg hrep, if_neg hid2]
            rw [hval]
            refine ⟨fun e st2 hE => by simp at hE, ?_⟩
            intro ed hed
            rcases List.mem_append.mp hed with hm | hm
            · rcases h ed hm with ⟨it, hit, hid⟩
              rcases hids it hit with ⟨it', hit', hid'⟩
              exact ⟨it', hit', by rw [hid', hid]⟩
            · rcases List.mem_singleton.mp hm with rfl
              exact ⟨coalesceItem old req now2, hco, rfl⟩

/-- Witness for C8 at a concrete state: an insert whose paired
encrypted-data row collides on the UNIQUE item_id index is fully rolled
back, and the no-orphan invariant holds after both operations. -/
theorem c8_write_atomicity_witness :
    ((∀ e st2, ItemRepository.Create
        (⟨[], [], [⟨9, 1, "text", "t", "", 0, 0⟩], [⟨4, 9, [1], [2]⟩]⟩ : ServerState)
        ⟨8, 1, "text", "u", "", 0, 0⟩ (some ⟨4, 8, [5], [6]⟩) 3
        = (.error e, st2) →
        st2 = (⟨[], [], [⟨9, 1, "text", "t", "", 0, 0⟩], [⟨4, 9, [1], [2]⟩]⟩ : ServerState))
      ∧ NoOrphans (ItemRepository.Create
        (⟨[], [], [⟨9, 1, "text", "t", "", 0, 0⟩], [⟨4, 9, [1], [2]⟩]⟩ : ServerState)
        ⟨8, 1, "text", "u", "", 0, 0⟩ (some ⟨4, 8, [5], [6]⟩) 3).2)
    ∧ ((∀ e st2, ItemRepository.Update
        (⟨[], [], [⟨9, 1, "text", "t", "", 0, 0⟩], [⟨4, 9, [1], [2]⟩]⟩ : ServerState)
        1 8 ⟨none, some "v", none, none⟩ none 3
        = (.error e, st2) →
        st2 = (⟨[], [], [⟨9, 1, "text", "t", "", 0, 0⟩], [⟨4, 9, [1], [2]⟩]⟩ : ServerState))
      ∧ NoOrphans (ItemRepository.Update
        (⟨[], [], [⟨9, 1, "text", "t", "", 0, 0⟩], [⟨4, 9, [1], [2]⟩]⟩ : ServerState)
        1 8 ⟨none, some "v", none, none⟩ none 3).2) :=
  c8_write_atomicity
    ⟨[], [], [⟨9, 1, "text", "t", "", 0, 0⟩], [⟨4, 9, [1], [2]⟩]⟩
    ⟨8, 1, "text", "u", "", 0, 0⟩ (some ⟨4, 8, [5], [6]⟩) 3 1 8 3
    ⟨none, some "v", none, none⟩ none
    (by intro ed hed; simp at hed; subst hed; exact ⟨⟨9, 1, "text", "t", "", 0, 0⟩, by simp, rfl⟩)

/-! ## Claim C1 — envelope round trip: helper lemmas -/

theorem any_id_false (items : List Item) (nid : Nat)
    (h : ∀ it ∈ items, it.id ≠ nid) : (items.any fun it => it.id == nid) = false := by
  cases hb : items.any (fun it => it.id == nid) with
  | false => rfl
  | true =>
    rcases List.any_eq_true.mp hb with ⟨it, hit, hpit⟩
    exact absurd (by simpa using hpit) (h it hit)

theorem find?_comp_none (items : List Item) (uid nid : Nat)
    (h : ∀ it ∈ items, it.id ≠ nid) :
    items.find? (fun it => it.id == nid && it.userID == uid) = none := by
  rw [List.find?_eq_none]
  intro it hit hb
  rcases Bool.and_eq_true_iff.mp hb with ⟨h1, _⟩
  exact absurd (by simpa using h1) (h it hit)

theorem find?_enc_none (l : List EncryptedData) (nid : Nat)
    (h : ∀ ed ∈ l, ed.itemID ≠ nid) :
    l.find? (fun e => e.itemID == nid) = none := by
  rw [List.find?_eq_none]
  intro ed hed hb
  exact absurd (by simpa using hb) (h ed hed)

theorem any_enc_false (l : List EncryptedData) (eid nid : Nat)
    (h : ∀ ed ∈ l, ed.itemID ≠ nid ∧ ed.id ≠ eid) :
    (l.any fun e => e.id == eid || e.itemID == nid) = false := by
  cases hb : l.any (fun e => e.id == eid || e.itemID == nid) with
  | false => rfl
  | true =>
    rcases List.any_eq_true.mp hb with ⟨ed, hed, hpit⟩
    rcases Bool.or_eq_true_iff.mp hpit with h1 | h1
    · exact absurd (by simpa using h1) (h ed hed).2
    · exact absurd (by simpa using h1) (h ed hed).1

/-- C1.  Envelope round trip: for any user, any request whose payload
decodes from base64 to `p` (with a 32-byte master key, a well-formed key
store, a valid item type and fresh identifiers), creating the item and
then getting it back as the same user returns the stored item together
with exactly the plaintext `p` — encryption under the fresh per-item data
key, wrapping of that key under the user's key, and the double decryption
on read are mutually inverse. -/
theorem c1_envelope_roundtrip (mk : Bytes) (g g2 : Nat → Nat) (off off2 : Nat)
    (st : ServerState) (req : CreateItemRequest) (uid nid eid now : Nat) (p : Bytes)
    (hmk : mk.length = KeySize) (hkeys : GoodKeyStore mk st)
    (hty : isValidType req.type = true)
    (hdec : decodeBase64 req.dataBase64 = .ok p)
    (hfit : ∀ it ∈ st.items, it.id ≠ nid)
    (hfed : ∀ ed ∈ st.encData, ed.itemID ≠ nid ∧ ed.id ≠ eid) :
    ∃ item st1 off1,
      ItemService.CreateItem mk g off st req uid nid eid now = (.ok item, st1, off1)
      ∧ item.id = nid ∧ item.userID = uid
      ∧ (ItemService.GetItem mk g2 off2 st1 uid nid).1 = .ok (item, p) := by
  have hty' : ¬ (¬ isValidType req.type = true) := by simp [hty]
  by_cases hp : 0 < p.length
  case pos =>
    rcases buildEncData_spec mk g off st uid eid nid p hkeys hmk with
      ⟨ed, stb, offb, uk, hbuild, hub, hib, heb, hgsb, hstable, hedid, hediid, hpos,
       dk, hdk1, hdk2⟩
    have ha1 : (stb.items.any fun it => it.id == nid) = false := by
      rw [hib]; exact any_id_false st.items nid hfit
    have hn1 : ¬ ((stb.items.any fun it => it.id == nid) = true) := by
      rw [ha1]; exact Bool.false_ne_true
    have ha2 : (stb.encData.any fun e => e.id == ed.id || e.itemID == nid) = false := by
      rw [heb, hedid]; exact any_enc_false st.encData eid nid hfed
    have hn2 : ¬ ((stb.encData.any fun e => e.id == ed.id || e.itemID == nid) = true) := by
      rw [ha2]; exact Bool.false_ne_true
    have hcreate : ItemRepository.Create stb
        ({ id := nid, userID := uid, type := req.type, title := req.title, metadata := req.metadata, createdAt := 0, updatedAt := 0 } : Item) (some ed) now
        = (.ok ({ id := nid, userID := uid, type := req.type, title := req.title, metadata := req.metadata, createdAt := now, updatedAt := now } : Item),
           ⟨stb.users, stb.keys,
            stb.items ++ [({ id := nid, userID := uid, type := req.type, title := req.title, metadata := req.metadata, createdAt := now, updatedAt := now } : Item)],
            stb.encData ++ [({ ed with itemID := nid } : EncryptedData)]⟩) := by
      simp only [ItemRepository.Create]
      rw [if_neg hn1, if_neg hn2]
    have hrun : ItemService.CreateItem mk g off st req uid nid eid now
        = (.ok ({ id := nid, userID := uid, type := req.type, title := req.title, metadata := req.metadata, createdAt := now, updatedAt := now } : Item),
           ⟨stb.users, stb.keys,
            stb.items ++ [({ id := nid, userID := uid, type := req.type, title := req.title, metadata := req.metadata, createdAt := now, updatedAt := now } : Item)],
            stb.encData ++ [({ ed with itemID := nid } : EncryptedData)]⟩, offb) := by
      simp only [ItemService.CreateItem]
      rw [if_neg hty', hdec]
      dsimp only
      rw [if_pos hp, hbuild]
      dsimp only
      rw [hcreate]
    have hfind2 : (stb.items ++ [({ id := nid, userID := uid, type := req.type, title := req.title, metadata := req.metadata, createdAt := now, updatedAt := now } : Item)]).find?
        (fun it => it.id == nid && it.userID == uid) = some ({ id := nid, userID := uid, type := req.type, title := req.title, metadata := req.metadata, createdAt := now, updatedAt := now } : Item) := by
      rw [List.find?_append, hib, find?_comp_none st.items uid nid hfit, Option.none_or]
      exact List.find?_cons_of_pos _ (by simp)
    have hfenc2 : (stb.encData ++ [({ ed with itemID := nid } : EncryptedData)]).find?
        (fun e => e.itemID == nid) = some ({ ed with itemID := nid } : EncryptedData) := by
      rw [List.find?_append, heb,
        find?_enc_none st.encData nid (fun e he => (hfed e he).1), Option.none_or]
      exact List.find?_cons_of_pos _ (by simp)
    have hgetbyid : ItemRepository.GetByID
        ⟨stb.users, stb.keys,
         stb.items ++ [({ id := nid, userID := uid, type := req.type, title := req.title, metadata := req.metadata, createdAt := now, updatedAt := now } : Item)],
         stb.encData ++ [({ ed with itemID := nid } : EncryptedData)]⟩ uid nid
        = .ok (({ id := nid, userID := uid, type := req.type, title := req.title, metadata := req.metadata, createdAt := now, updatedAt := now } : Item), some ({ ed with itemID := nid } : EncryptedData)) := by
      simp only [ItemRepository.GetByID]
      rw [hfind2]
      dsimp only
      rw [hfenc2]
    have hstable2 : ItemService.loadOrCreateKey mk g2 off2
        ⟨stb.users, stb.keys,
         stb.items ++ [({ id := nid, userID := uid, type := req.type, title := req.title, metadata := req.metadata, createdAt := now, updatedAt := now } : Item)],
         stb.encData ++ [({ ed with itemID := nid } : EncryptedData)]⟩ uid
        = (.ok uk,
           ⟨stb.users, stb.keys,
            stb.items ++ [({ id := nid, userID := uid, type := req.type, title := req.title, metadata := req.metadata, createdAt := now, updatedAt := now } : Item)],
            stb.encData ++ [({ ed with itemID := nid } : EncryptedData)]⟩, off2) :=
      hstable g2 off2 _ rfl
    have hget : ItemService.GetItem mk g2 off2
        ⟨stb.users, stb.keys,
         stb.items ++ [({ id := nid, userID := uid, type := req.type, title := req.title, metadata := req.metadata, createdAt := now, updatedAt := now } : Item)],
         stb.encData ++ [({ ed with itemID := nid } : EncryptedData)]⟩ uid nid
        = (.ok (({ id := nid, userID := uid, type := req.type, title := req.title, metadata := req.metadata, createdAt := now, updatedAt := now } : Item), p),
           ⟨stb.users, stb.keys,
            stb.items ++ [({ id := nid, userID := uid, type := req.type, title := req.title, metadata := req.metadata, createdAt := now, updatedAt := now } : Item)],
            stb.encData ++ [({ ed with itemID := nid } : EncryptedData)]⟩, off2) := by
      simp only [ItemService.GetItem]
      rw [hgetbyid]
      dsimp only
      rw [if_pos hpos, hstable2]
      dsimp only
      rw [hdk1]
      dsimp only
      rw [hdk2]
    refine ⟨({ id := nid, userID := uid, type := req.type, title := req.title, metadata := req.metadata, createdAt := now, updatedAt := now } : Item),
      ⟨stb.users, stb.keys,
       stb.items ++ [({ id := nid, userID := uid, type := req.type, title := req.title, metadata := req.metadata, createdAt := now, updatedAt := now } : Item)],
       stb.encData ++ [({ ed with itemID := nid } : EncryptedData)]⟩, offb, hrun, rfl, rfl, ?_⟩
    rw [hget]
  case neg =>
    have hp0 : p = [] := by
      cases p with
      | nil => rfl
      | cons a l => simp at hp
    subst hp0
    have ha1 : (st.items.any fun it => it.id == nid) = false :=
      any_id_false st.items nid hfit
    have hn1 : ¬ ((st.items.any fun it => it.id == nid) = true) := by
      rw [ha1]; exact Bool.false_ne_true
    have hplen : ¬ (0 < List.length ([] : Bytes)) := by decide
    have hcreate : ItemRepository.Create st
        ({ id := nid, userID := uid, type := req.type, title := req.title, metadata := req.metadata, createdAt := 0, updatedAt := 0 } : Item) none now
        = (.ok ({ id := nid, userID := uid, type := req.type, title := req.title, metadata := req.metadata, createdAt := now, updatedAt := now } : Item),
           ⟨st.users, st.keys,
            st.items ++ [({ id := nid, userID := uid, type := req.type, title := req.title, metadata := req.metadata, createdAt := now, updatedAt := now } : Item)],
            st.encData⟩) := by
      simp only [ItemRepository.Create]
      rw [if_neg hn1]
    have hrun : ItemService.CreateItem mk g off st req uid nid eid now
        = (.ok ({ id := nid, userID := uid, type := req.type, title := req.title, metadata := req.metadata, createdAt := now, updatedAt := now } : Item),
           ⟨st.users, st.keys,
            st.items ++ [({ id := nid, userID := uid, type := req.type, title := req.title, metadata := req.metadata, createdAt := now, updatedAt := now } : Item)],
            st.encData⟩, off) := by
      simp only [ItemService.CreateItem]
      rw [if_neg hty', hdec]
      dsimp only
      rw [if_neg hplen, hcreate]
    have hfind2 : (st.items ++ [({ id := nid, userID := uid, type := req.type, title := req.title, metadata := req.metadata, createdAt := now, updatedAt := now } : Item)]).find?
        (fun it => it.id == nid && it.userID == uid) = some ({ id := nid, userID := uid, type := req.type, title := req.title, metadata := req.metadata, createdAt := now, updatedAt := now } : Item) := by
      rw [List.find?_append, find?_comp_none st.items uid nid hfit, Option.none_or]
      exact List.find?_cons_of_pos _ (by simp)
    have hfenc2 : st.encData.find? (fun e => e.itemID == nid) = none :=
      find?_enc_none st.encData nid (fun e he => (hfed e he).1)
    have hgetbyid : ItemRepository.GetByID
        ⟨st.users, st.keys, st.items ++ [({ id := nid, userID := uid, type := req.type, title := req.title, metadata := req.metadata, createdAt := now, updatedAt := now } : Item)], st.encData⟩ uid nid
        = .ok (({ id := nid, userID := uid, type := req.type, title := req.title, metadata := req.metadata, createdAt := now, updatedAt := now } : Item), none) := by
      simp only [ItemRepository.GetByID]
      rw [hfind2]
      dsimp only
      rw [hfenc2]
    have hget : ItemService.GetItem mk g2 off2
        ⟨st.users, st.keys, st.items ++ [({ id := nid, userID := uid, type := req.type, title := req.title, metadata := req.metadata, createdAt := now, updatedAt := now } : Item)], st.encData⟩ uid nid
        = (.ok (({ id := nid, userID := uid, type := req.type, title := req.title, metadata := req.metadata, createdAt := now, updatedAt := now } : Item), []),
           ⟨st.users, st.keys, st.items ++ [({ id := nid, userID := uid, type := req.type, title := req.title, metadata := req.metadata, createdAt := now, updatedAt := now } : Item)], st.encData⟩, off2) := by
      simp only [ItemService.GetItem]
      rw [hgetbyid]
    refine ⟨({ id := nid, userID := uid, type := req.type, title := req.title, metadata := req.metadata, createdAt := now, updatedAt := now } : Item),
      ⟨st.users, st.keys, st.items ++ [({ id := nid, userID := uid, type := req.type, title := req.title, metadata := req.metadata, createdAt := now, updatedAt := now } : Item)], st.encData⟩, off, hrun, rfl, rfl, ?_⟩
    rw [hget]

/-- Witness for C1: storing the payload `"aGVsbG8="` (base64 of "hello")
in a fresh store and reading it back yields exactly the bytes of
"hello". -/
theorem c1_envelope_roundtrip_witness :
    ∃ item st1 off1,
      ItemService.CreateItem (List.replicate 32 1) (fun n => n) 0 ⟨[], [], [], []⟩
        ⟨"text", "n", "", "aGVsbG8="⟩ 1 100 200 50 = (.ok item, st1, off1)
      ∧ item.id = 100 ∧ item.userID = 1
      ∧ (ItemService.GetItem (List.replicate 32 1) (fun n => n + 7) 3 st1 1 100).1
        = .ok (item, [104, 101, 108, 108, 111]) :=
  c1_envelope_roundtrip (List.replicate 32 1) (fun n => n) (fun n => n + 7) 0 3
    ⟨[], [], [], []⟩ ⟨"text", "n", "", "aGVsbG8="⟩ 1 100 200 50
    [104, 101, 108, 108, 111]
    (by decide) (by intro q hq; simp at hq) (by decide) (by rfl)
    (by intro it hit; simp at hit) (by intro e he; simp at he)

end Gophkeeper
